import Mathlib

/-!
Verification of the OpenClaw Observatory collection-and-aggregation engine
(`src/tools/openclaw-observatory/collector.mjs`).

Shallow embedding conventions:
* JS numbers are modelled as `ℚ` (all claims concern comparisons, sums and
  exact divisions; `toFinite` becomes the identity on an `Option ℚ` field,
  `undefined`/absent becomes `none`).
* A JSON record is modelled as a typed structure of `Option` fields: `none`
  stands for "field absent or of the wrong runtime type", `some v` for a
  field that passes the source's `typeof`/`Number.isFinite` probe.
* The outer ISO-8601 timestamp string is abstracted to its `Date.parse`
  result: `none` = no string field, `some none` = unparseable string,
  `some (some t)` = a string parsing to `t` milliseconds.
* `dayKeyFromMs` renders a UTC calendar day string `YYYY-MM-DD` in the
  source; the rendering is equality- and order-isomorphic to the UTC day
  ordinal `⌊ms / 86400000⌋`, which is what we use as the day key.
* JS `Map`/`Set` (insertion-ordered) are modelled as association lists with
  in-place update / append-if-absent.
* `Array.prototype.sort(cmp)` is modelled with `List.insertionSort r` where
  `r a b` holds exactly when `cmp(a, b) ≤ 0`.
-/

namespace Observatory

/-- `DAY_MS` from the source. -/
def DAY_MS : ℚ := 24 * 60 * 60 * 1000

/-- `STOP_REASON_ERRORS` from the source. -/
def STOP_REASON_ERRORS : List String := ["error", "aborted", "cancelled", "timeout"]

/-- `dayKeyFromMs`: the UTC calendar day of a millisecond timestamp,
represented by its day ordinal (see header note). -/
def dayKeyFromMs (ms : ℚ) : Int := Int.floor (ms / DAY_MS)

/-- Nested cost-breakdown object (`usage.cost` / `record.cost`). -/
structure RawCost where
  total? : Option ℚ := none
  input? : Option ℚ := none
  output? : Option ℚ := none
  cacheRead? : Option ℚ := none
  cacheWrite? : Option ℚ := none
deriving DecidableEq

/-- A raw usage object with all field-name variants probed by
`normalizeUsage`, plus the nested `cost` read by `extractCostBreakdown`. -/
structure RawUsage where
  input? : Option ℚ := none
  inputTokens? : Option ℚ := none
  prompt_tokens? : Option ℚ := none
  promptTokens? : Option ℚ := none
  output? : Option ℚ := none
  outputTokens? : Option ℚ := none
  completion_tokens? : Option ℚ := none
  completionTokens? : Option ℚ := none
  cacheRead? : Option ℚ := none
  cache_read_input_tokens? : Option ℚ := none
  cacheReadInputTokens? : Option ℚ := none
  cacheWrite? : Option ℚ := none
  cache_creation_input_tokens? : Option ℚ := none
  cacheWriteInputTokens? : Option ℚ := none
  total? : Option ℚ := none
  totalTokens? : Option ℚ := none
  total_tokens? : Option ℚ := none
  cost? : Option RawCost := none
deriving DecidableEq

/-- The canonical usage tuple returned by `normalizeUsage`. -/
structure UsageTuple where
  input : ℚ
  output : ℚ
  cacheRead : ℚ
  cacheWrite : ℚ
  total : ℚ
deriving DecidableEq

/-- The `input` alias chain of `normalizeUsage` (defaulted to 0). -/
def rawInput (record : RawUsage) : ℚ :=
  (record.input? <|> record.inputTokens? <|>
    record.prompt_tokens? <|> record.promptTokens?).getD 0

/-- The `output` alias chain of `normalizeUsage` (defaulted to 0). -/
def rawOutput (record : RawUsage) : ℚ :=
  (record.output? <|> record.outputTokens? <|>
    record.completion_tokens? <|> record.completionTokens?).getD 0

/-- The `cacheRead` alias chain of `normalizeUsage` (defaulted to 0). -/
def rawCacheRead (record : RawUsage) : ℚ :=
  (record.cacheRead? <|> record.cache_read_input_tokens? <|>
    record.cacheReadInputTokens?).getD 0

/-- The `cacheWrite` alias chain of `normalizeUsage` (defaulted to 0). -/
def rawCacheWrite (record : RawUsage) : ℚ :=
  (record.cacheWrite? <|> record.cache_creation_input_tokens? <|>
    record.cacheWriteInputTokens?).getD 0

/-- The independent-total alias chain of `normalizeUsage` (`undefined` when
the source supplied no explicit total). -/
def rawTotal? (record : RawUsage) : Option ℚ :=
  record.total? <|> record.totalTokens? <|> record.total_tokens?

/-- `normalizeUsage(raw)`; the argument is `none` when `asRecord` fails. -/
def normalizeUsage (raw : Option RawUsage) : Option UsageTuple :=
  match raw with
  | none => none
  | some record =>
    let input := rawInput record
    let output := rawOutput record
    let cacheRead := rawCacheRead record
    let cacheWrite := rawCacheWrite record
    let total := (rawTotal? record).getD (input + output + cacheRead + cacheWrite)
    if total ≤ 0 ∧ input ≤ 0 ∧ output ≤ 0 ∧ cacheRead ≤ 0 ∧ cacheWrite ≤ 0 then
      none
    else
      some { input := max 0 input, output := max 0 output,
             cacheRead := max 0 cacheRead, cacheWrite := max 0 cacheWrite,
             total := max 0 total }

/-- Cost breakdown returned by `extractCostBreakdown`. -/
structure CostBreakdown where
  total : ℚ
  input? : Option ℚ := none
  output? : Option ℚ := none
  cacheRead? : Option ℚ := none
  cacheWrite? : Option ℚ := none
deriving DecidableEq

/-- `extractCostBreakdown(usageRaw)`. -/
def extractCostBreakdown (usageRaw : Option RawUsage) : Option CostBreakdown :=
  match usageRaw with
  | none => none
  | some usage =>
    match usage.cost? with
    | none => none
    | some cost =>
      match cost.total? with
      | none => none
      | some total =>
        if total < 0 then none
        else some { total, input? := cost.input?, output? := cost.output?,
                    cacheRead? := cost.cacheRead?, cacheWrite? := cost.cacheWrite? }

/-- One element of a message `content` array. `other` stands for any block
that matches none of the probed shapes (including a `text` block whose
`text` is not a string). -/
inductive ContentPart where
  | str (s : String)
  | text (s : String)
  | toolUse (name? : Option String)
  | toolResult (isError : Bool)
  | other
deriving DecidableEq

/-- A message `content` value: a plain string, an array of blocks, or
anything else / absent (`none`). -/
abbrev Content := Option (String ⊕ List ContentPart)

/-- Result triple of `extractToolDetails`. -/
structure ToolDetails where
  names : List String
  results : Nat
  errors : Nat
deriving DecidableEq

/-- One iteration of the content loop in `extractToolDetails`. -/
def toolDetailStep (acc : ToolDetails) (p : ContentPart) : ToolDetails :=
  match p with
  | .toolUse name? =>
    let name := (name?.map String.trim).getD ""
    if name ≠ "" then { acc with names := acc.names ++ [name] } else acc
  | .toolResult isError =>
    { acc with
      results := acc.results + 1,
      errors := acc.errors + (if isError then 1 else 0) }
  | _ => acc

/-- The nested `message` payload, with every field the collector probes. -/
structure MessageRec where
  role? : Option String := none
  timestamp? : Option ℚ := none
  content : Content := none
  usage? : Option RawUsage := none
  provider? : Option String := none
  model? : Option String := none
  stopReason? : Option String := none
  durationMs? : Option ℚ := none
  costTotal? : Option ℚ := none
  cost? : Option RawCost := none
  toolName? : Option String := none
  name? : Option String := none
deriving DecidableEq

/-- `extractToolDetails(message)`. -/
def extractToolDetails (message : MessageRec) : ToolDetails :=
  let base : ToolDetails :=
    match message.content with
    | some (Sum.inr parts) => parts.foldl toolDetailStep ⟨[], 0, 0⟩
    | _ => ⟨[], 0, 0⟩
  let base :=
    if message.role? = some "tool" then
      { base with names := base.names ++ [(message.toolName? <|> message.name?).getD "tool"] }
    else base
  if message.role? = some "toolResult" then
    { base with results := base.results + 1 }
  else base

/-- The chunk a single content block contributes in `extractText`
(`none` when the block is skipped). -/
def textChunkOf (p : ContentPart) : Option String :=
  match p with
  | .str s => if s.trim ≠ "" then some s.trim else none
  | .text s => if s.trim ≠ "" then some s.trim else none
  | .toolUse name? => some ("[tool:" ++ name?.getD "tool" ++ "]")
  | .toolResult _ => some "[tool_result]"
  | .other => none

/-- `extractText(content)`. -/
def extractText (content : Content) : String :=
  match content with
  | some (Sum.inl s) => s.trim
  | some (Sum.inr parts) =>
    (String.intercalate " " (parts.filterMap textChunkOf)).trim
  | none => ""

/-- `trimSnippet(value, max)`. -/
def trimSnippet (value : String) (maxLen : Nat := 180) : String :=
  if value = "" then ""
  else if value.length ≤ maxLen then value
  else value.take (maxLen - 1) ++ "…"

/-- The running totals object from `createTotals`. -/
structure Totals where
  input : ℚ := 0
  output : ℚ := 0
  cacheRead : ℚ := 0
  cacheWrite : ℚ := 0
  totalTokens : ℚ := 0
  totalCost : ℚ := 0
  inputCost : ℚ := 0
  outputCost : ℚ := 0
  cacheReadCost : ℚ := 0
  cacheWriteCost : ℚ := 0
  missingCostEntries : Nat := 0
deriving DecidableEq

/-- `createTotals()`. -/
def createTotals : Totals := {}

/-- `mergeTotals(target, source)`. -/
def mergeTotals (target source : Totals) : Totals :=
  { input := target.input + source.input,
    output := target.output + source.output,
    cacheRead := target.cacheRead + source.cacheRead,
    cacheWrite := target.cacheWrite + source.cacheWrite,
    totalTokens := target.totalTokens + source.totalTokens,
    totalCost := target.totalCost + source.totalCost,
    inputCost := target.inputCost + source.inputCost,
    outputCost := target.outputCost + source.outputCost,
    cacheReadCost := target.cacheReadCost + source.cacheReadCost,
    cacheWriteCost := target.cacheWriteCost + source.cacheWriteCost,
    missingCostEntries := target.missingCostEntries + source.missingCostEntries }

/-- `applyUsageTotals(totals, usage)`. -/
def applyUsageTotals (totals : Totals) (usage : UsageTuple) : Totals :=
  { totals with
    input := totals.input + usage.input,
    output := totals.output + usage.output,
    cacheRead := totals.cacheRead + usage.cacheRead,
    cacheWrite := totals.cacheWrite + usage.cacheWrite,
    totalTokens := totals.totalTokens + usage.total }

/-- `applyCostBreakdown(totals, breakdown)`. -/
def applyCostBreakdown (totals : Totals) (breakdown : CostBreakdown) : Totals :=
  let totals := { totals with totalCost := totals.totalCost + breakdown.total }
  let totals := match breakdown.input? with
    | some v => { totals with inputCost := totals.inputCost + v }
    | none => totals
  let totals := match breakdown.output? with
    | some v => { totals with outputCost := totals.outputCost + v }
    | none => totals
  let totals := match breakdown.cacheRead? with
    | some v => { totals with cacheReadCost := totals.cacheReadCost + v }
    | none => totals
  match breakdown.cacheWrite? with
  | some v => { totals with cacheWriteCost := totals.cacheWriteCost + v }
  | none => totals

/-- `applyCostTotal(totals, total)`: a present, finite, non-negative total is
added to `totalCost`; anything else records a missing cost entry. -/
def applyCostTotal (totals : Totals) (total? : Option ℚ) : Totals :=
  match total? with
  | some t =>
    if 0 ≤ t then { totals with totalCost := totals.totalCost + t }
    else { totals with missingCostEntries := totals.missingCostEntries + 1 }
  | none => { totals with missingCostEntries := totals.missingCostEntries + 1 }

/-- `LatencyStats` as produced by `computeLatencyStats`. -/
structure LatencyStats where
  count : Nat
  avgMs : ℚ
  p95Ms : ℚ
  minMs : ℚ
  maxMs : ℚ
deriving DecidableEq

/-- The ascending numeric order used by `values.sort((a, b) => a - b)`. -/
def numAsc (a b : ℚ) : Prop := a - b ≤ 0

instance : DecidableRel numAsc := fun a b => inferInstanceAs (Decidable (a - b ≤ 0))

/-- `computeLatencyStats(values)`; `none` models `undefined` for an empty
sample list. -/
def computeLatencyStats (values : List ℚ) : Option LatencyStats :=
  if values = [] then none
  else
    let sorted := List.insertionSort numAsc values
    let count := sorted.length
    let sum := sorted.foldl (· + ·) 0
    let p95Index := min (sorted.length - 1) (Nat.floor ((sorted.length : ℚ) * 0.95))
    some { count,
           avgMs := sum / count,
           p95Ms := sorted.getD p95Index 0,
           minMs := sorted.getD 0 0,
           maxMs := sorted.getD (sorted.length - 1) 0 }

/-- The order induced by a two-level descending JS comparator
`(a, b) => c(b) - c(a) || t(b) - t(a)`: `a` may precede `b` exactly when the
comparator is `≤ 0`. `sortByCostThenTokens` instantiates `c`/`t` with total
cost and total tokens. -/
def rankLE {α : Type} (c t : α → ℚ) (a b : α) : Prop :=
  if c b - c a ≠ 0 then c b - c a < 0 else t b - t a ≤ 0

instance {α : Type} (c t : α → ℚ) : DecidableRel (rankLE c t) := fun a b => by
  unfold rankLE; infer_instance

/-- The order of a one-level descending comparator `(a, b) => c(b) - c(a)`. -/
def descLE {α : Type} (c : α → ℚ) (a b : α) : Prop := c b - c a ≤ 0

instance {α : Type} (c : α → ℚ) : DecidableRel (descLE c) := fun a b => by
  unfold descLE; infer_instance

/-- The order of a one-level ascending comparator `(a, b) => c(a) - c(b)`. -/
def ascLE {α : Type} (c : α → ℚ) (a b : α) : Prop := c a - c b ≤ 0

instance {α : Type} (c : α → ℚ) : DecidableRel (ascLE c) := fun a b => by
  unfold ascLE; infer_instance

/-- Ascending order on day keys (`(a, b) => a.date.localeCompare(b.date)`,
ISO day strings ordered lexicographically = chronologically). -/
def dateAsc {α : Type} (c : α → Int) (a b : α) : Prop := c a ≤ c b

instance {α : Type} (c : α → Int) : DecidableRel (dateAsc c) := fun a b => by
  unfold dateAsc; infer_instance

/-- One decoded transcript record (a parsed JSONL line that is an object). -/
structure Record where
  timestampStr? : Option (Option ℚ) := none
  message? : Option MessageRec := none
  usage? : Option RawUsage := none
  provider? : Option String := none
  model? : Option String := none
  stopReason? : Option String := none
  durationMs? : Option ℚ := none
  costTotal? : Option ℚ := none
  cost? : Option RawCost := none
deriving DecidableEq

/-- A raw transcript line: `none` when the line is blank, fails `JSON.parse`,
or decodes to a non-object (all of which the parser skips identically). -/
abbrev Line := Option Record

/-- `parseTimestampMs(entry, message)`: the outer ISO string when it parses,
else the numeric `message.timestamp`, else absent. -/
def parseTimestampMs (record : Record) (message : MessageRec) : Option ℚ :=
  match record.timestampStr? with
  | some (some ts) => some ts
  | _ => message.timestamp?

/-- The collection time range; `startMs? = none` models the
`Number.NEGATIVE_INFINITY` start used for `days = "all"`. -/
structure Range where
  startMs? : Option ℚ := none
  endMs : ℚ
deriving DecidableEq

/-- `timestampMs >= range.startMs && timestampMs <= range.endMs`. -/
def Range.containsB (r : Range) (t : ℚ) : Bool :=
  (match r.startMs? with | none => true | some s => decide (s ≤ t)) && decide (t ≤ r.endMs)

/-- The `inRange` predicate of the parse loop: a record with no resolvable
timestamp is always treated as in range. -/
def recordInRange (range : Range) (record : Record) : Bool :=
  match parseTimestampMs record (record.message?.getD {}) with
  | none => true
  | some t => range.containsB t

/-- The accepted role strings. -/
def roleStrings : List String := ["user", "assistant", "tool", "toolResult"]

/-- The recognized role of a message (`undefined` otherwise). -/
def validRole (role? : Option String) : Option String :=
  match role? with
  | some r => if r ∈ roleStrings then some r else none
  | none => none

/-- The `provider::model` key with `unknown` defaults. -/
def modelKeyOf (provider? model? : Option String) : String :=
  provider?.getD "unknown" ++ "::" ++ model?.getD "unknown"

/-- JS `Map.get`. -/
def mapGet {κ β : Type} [DecidableEq κ] (k : κ) : List (κ × β) → Option β
  | [] => none
  | (k', v) :: rest => if k' = k then some v else mapGet k rest

/-- JS `Map.set`: updates in place, appends a new key (insertion order). -/
def mapSet {κ β : Type} [DecidableEq κ] (k : κ) (v : β) : List (κ × β) → List (κ × β)
  | [] => [(k, v)]
  | (k', v') :: rest => if k' = k then (k, v) :: rest else (k', v') :: mapSet k v rest

/-- JS `Set.add` (insertion order, no duplicates). -/
def setAdd {κ : Type} [DecidableEq κ] (k : κ) (l : List κ) : List κ :=
  if k ∈ l then l else l ++ [k]

/-- A per-day bucket of the session parser. -/
structure DayBucket where
  date : Int
  tokens : ℚ := 0
  cost : ℚ := 0
  messages : Nat := 0
  toolCalls : Nat := 0
  errors : Nat := 0
deriving DecidableEq

/-- A per-model bucket of the session parser (`modelMap` values). -/
structure ModelBucket where
  provider? : Option String := none
  model? : Option String := none
  count : Nat := 0
  totals : Totals := createTotals
deriving DecidableEq

/-- The message counters of a session. -/
structure MessageCounts where
  total : Nat := 0
  user : Nat := 0
  assistant : Nat := 0
  toolCalls : Nat := 0
  toolResults : Nat := 0
  errors : Nat := 0
deriving DecidableEq

/-- One timeline entry. -/
structure TimelineEvent where
  timestamp : ℚ
  role : String
  provider? : Option String
  model? : Option String
  tokens : ℚ
  inputTokens : ℚ
  outputTokens : ℚ
  cost? : Option ℚ
  durationMs? : Option ℚ
  toolCalls : Nat
  toolResults : Nat
  isError : Bool
  stopReason? : Option String
  text : String
deriving DecidableEq

/-- One waterfall span. -/
structure WaterfallSpan where
  startTs : ℚ
  endTs : ℚ
  latencyMs : ℚ
  provider? : Option String
  model? : Option String
  tokens : ℚ
  cost? : Option ℚ
  error : Bool
deriving DecidableEq

/-- One preview entry. -/
structure PreviewItem where
  timestamp? : Option ℚ
  role : String
  text : String
deriving DecidableEq

/-- The mutable state of `parseSessionFile`'s line loop. -/
structure PState where
  totals : Totals := createTotals
  counts : MessageCounts := {}
  toolMap : List (String × Nat) := []
  modelMap : List (String × ModelBucket) := []
  dailyMap : List (Int × DayBucket) := []
  dailyLatencies : List (Int × List ℚ) := []
  latencyValues : List ℚ := []
  preview : List PreviewItem := []
  timeline : List TimelineEvent := []
  waterfall : List WaterfallSpan := []
  activityDates : List Int := []
  firstActivity? : Option ℚ := none
  lastActivity? : Option ℚ := none
  lastUserTs? : Option ℚ := none
  previousAssistantModelKey? : Option String := none
  modelSwitches : Nat := 0
deriving DecidableEq

/-- The per-record facts computed before the fold steps. -/
structure RecCtx where
  role? : Option String
  ts? : Option ℚ
  dayKey? : Option Int
  tools : ToolDetails
  stopReason? : Option String
  stopErr : Bool
  usageRaw? : Option RawUsage
  usage? : Option UsageTuple
  provider? : Option String
  model? : Option String
  rawCostChain? : Option ℚ
  content : Content
deriving DecidableEq

/-- The state plus the local `dayBucket` being threaded through one record. -/
abbrev PStep := PState × Option DayBucket

/-- First/last activity and activity-date updates (lines 446-450). -/
def sActivity (ts? : Option ℚ) (st : PState) : PState :=
  match ts? with
  | some t =>
    { st with
      firstActivity? := some (match st.firstActivity? with | none => t | some f => min f t),
      lastActivity? := some (match st.lastActivity? with | none => t | some l => max l t),
      activityDates := setAdd (dayKeyFromMs t) st.activityDates }
  | none => st

/-- Fetch-or-create of the day bucket (lines 452-462). -/
def initialBucket (st : PState) (dayKey? : Option Int) : Option DayBucket :=
  dayKey?.map fun k => (mapGet k st.dailyMap).getD { date := k }

/-- Message counting (lines 464-475). -/
def sCounts (ctx : RecCtx) (s : PStep) : PStep :=
  if ctx.role? = some "user" ∨ ctx.role? = some "assistant" then
    ({ s.1 with counts :=
        { s.1.counts with
          total := s.1.counts.total + 1,
          user := s.1.counts.user + (if ctx.role? = some "user" then 1 else 0),
          assistant := s.1.counts.assistant + (if ctx.role? = some "assistant" then 1 else 0) } },
     s.2.map fun b => { b with messages := b.messages + 1 })
  else s

/-- Rolling last-user timestamp (lines 477-479). -/
def sLastUser (ctx : RecCtx) (st : PState) : PState :=
  if ctx.role? = some "user" ∧ ctx.ts?.isSome then { st with lastUserTs? := ctx.ts? } else st

/-- Tool-call counting (lines 481-498). -/
def sTools (ctx : RecCtx) (s : PStep) : PStep :=
  let s :=
    if ctx.tools.names ≠ [] then
      ({ s.1 with
          counts := { s.1.counts with toolCalls := s.1.counts.toolCalls + ctx.tools.names.length },
          toolMap := ctx.tools.names.foldl
            (fun m n => mapSet n ((mapGet n m).getD 0 + 1) m) s.1.toolMap },
       s.2.map fun b => { b with toolCalls := b.toolCalls + ctx.tools.names.length })
    else s
  if ctx.tools.results > 0 then
    ({ s.1 with counts :=
        { s.1.counts with
          toolResults := s.1.counts.toolResults + ctx.tools.results,
          errors := s.1.counts.errors + ctx.tools.errors } },
     s.2.map fun b => { b with errors := b.errors + ctx.tools.errors })
  else s

/-- Stop-reason error counting (lines 500-512). -/
def sStopErr (ctx : RecCtx) (s : PStep) : PStep :=
  if ctx.stopErr then
    ({ s.1 with counts := { s.1.counts with errors := s.1.counts.errors + 1 } },
     s.2.map fun b => { b with errors := b.errors + 1 })
  else s

/-- Usage and cost folding (lines 531-568); also returns `entryCostTotal`. -/
def sUsage (ctx : RecCtx) (s : PStep) : PStep × Option ℚ :=
  match ctx.usage? with
  | none => (s, none)
  | some usage =>
    let totals := applyUsageTotals s.1.totals usage
    let b? := s.2.map fun b => { b with tokens := b.tokens + usage.total }
    let modelKey := modelKeyOf ctx.provider? ctx.model?
    let bucket := (mapGet modelKey s.1.modelMap).getD
      { provider? := ctx.provider?, model? := ctx.model? }
    let bucket := { bucket with
      count := bucket.count + 1,
      totals := applyUsageTotals bucket.totals usage }
    match extractCostBreakdown ctx.usageRaw? with
    | some breakdown =>
      let totals := applyCostBreakdown totals breakdown
      let bucket := { bucket with totals := applyCostBreakdown bucket.totals breakdown }
      let b? := b?.map fun b => { b with cost := b.cost + breakdown.total }
      (({ s.1 with totals, modelMap := mapSet modelKey bucket s.1.modelMap }, b?),
       some breakdown.total)
    | none =>
      let totals := applyCostTotal totals ctx.rawCostChain?
      let bucket := { bucket with totals := applyCostTotal bucket.totals ctx.rawCostChain? }
      let b? := match ctx.rawCostChain? with
        | some c => b?.map fun b => { b with cost := b.cost + c }
        | none => b?
      (({ s.1 with totals, modelMap := mapSet modelKey bucket s.1.modelMap }, b?),
       ctx.rawCostChain?)

/-- Duration resolution (lines 570-573). The fallback requires a truthy
`lastUserTs` (a set, non-zero timestamp). -/
def computeDuration (ctx : RecCtx) (record : Record) (message : MessageRec)
    (st : PState) : Option ℚ :=
  match record.durationMs? <|> message.durationMs? with
  | some d => some d
  | none =>
    if ctx.role? = some "assistant" then
      match ctx.ts?, st.lastUserTs? with
      | some t, some lu => if lu ≠ 0 then some (max 0 (t - lu)) else none
      | _, _ => none
    else none

/-- Latency sample collection (lines 574-582). -/
def sLatency (ctx : RecCtx) (dur? : Option ℚ) (st : PState) : PState :=
  if ctx.role? = some "assistant" then
    match dur? with
    | some d =>
      let st := { st with latencyValues := st.latencyValues ++ [d] }
      match ctx.dayKey? with
      | some k =>
        { st with dailyLatencies :=
            mapSet k ((mapGet k st.dailyLatencies).getD [] ++ [d]) st.dailyLatencies }
      | none => st
    | none => st
  else st

/-- Model-switch detection (lines 584-594). -/
def sSwitch (ctx : RecCtx) (st : PState) : PState :=
  let key := modelKeyOf ctx.provider? ctx.model?
  let st :=
    if ctx.role? = some "assistant" ∧ st.previousAssistantModelKey?.isSome ∧
        key ≠ "unknown::unknown" ∧ st.previousAssistantModelKey? ≠ some key then
      { st with modelSwitches := st.modelSwitches + 1 }
    else st
  if ctx.role? = some "assistant" ∧ key ≠ "unknown::unknown" then
    { st with previousAssistantModelKey? := some key }
  else st

/-- Timeline append (lines 596-614). -/
def sTimeline (ctx : RecCtx) (dur? entryCost? : Option ℚ) (st : PState) : PState :=
  match ctx.ts?, ctx.role? with
  | some t, some role =>
    { st with timeline := st.timeline ++
        [{ timestamp := t, role,
           provider? := ctx.provider?, model? := ctx.model?,
           tokens := (ctx.usage?.map (·.total)).getD 0,
           inputTokens := (ctx.usage?.map (·.input)).getD 0,
           outputTokens := (ctx.usage?.map (·.output)).getD 0,
           cost? := entryCost?, durationMs? := dur?,
           toolCalls := ctx.tools.names.length,
           toolResults := ctx.tools.results,
           isError := ctx.tools.errors > 0 ∨ ctx.stopErr,
           stopReason? := ctx.stopReason?,
           text := trimSnippet (extractText ctx.content) 140 }] }
  | _, _ => st

/-- Waterfall append (lines 616-627). -/
def sWaterfall (ctx : RecCtx) (entryCost? : Option ℚ) (st : PState) : PState :=
  if ctx.role? = some "assistant" then
    match ctx.ts?, st.lastUserTs? with
    | some t, some lu =>
      { st with waterfall := st.waterfall ++
          [{ startTs := min lu t, endTs := t, latencyMs := max 0 (t - lu),
             provider? := ctx.provider?, model? := ctx.model?,
             tokens := (ctx.usage?.map (·.total)).getD 0,
             cost? := entryCost?,
             error := ctx.tools.errors > 0 ∨ ctx.stopErr }] }
    | _, _ => st
  else st

/-- Commit of the local day bucket (lines 629-631). -/
def sCommitBucket (s : PStep) : PState :=
  match s.2 with
  | some b => { s.1 with dailyMap := mapSet b.date b s.1.dailyMap }
  | none => s.1

/-- Preview ring buffer (lines 633-645). -/
def sPreview (ctx : RecCtx) (st : PState) : PState :=
  match ctx.role? with
  | some role =>
    let text := trimSnippet (extractText ctx.content)
    if text ≠ "" then
      let p := st.preview ++ [({ timestamp? := ctx.ts?, role := role, text := text } : PreviewItem)]
      { st with preview := if p.length > 8 then p.drop 1 else p }
    else st
  | none => st

/-- The per-record context, as computed by the loop body. -/
def recCtx (record : Record) : RecCtx :=
  let message := record.message?.getD {}
  let stopReason? := message.stopReason? <|> record.stopReason?
  let ts? := parseTimestampMs record message
  { role? := validRole message.role?,
    ts? := ts?,
    dayKey? := ts?.map dayKeyFromMs,
    tools := extractToolDetails message,
    stopReason? := stopReason?,
    stopErr := (stopReason?.map (fun s => STOP_REASON_ERRORS.contains s.toLower)).getD false,
    usageRaw? := message.usage? <|> record.usage?,
    usage? := normalizeUsage (message.usage? <|> record.usage?),
    provider? := message.provider? <|> record.provider?,
    model? := message.model? <|> record.model?,
    rawCostChain? := record.costTotal? <|> message.costTotal? <|>
      (record.cost?.bind (·.total?)) <|> (message.cost?.bind (·.total?)),
    content := message.content }

/-- The whole body of the line loop for one decoded record. -/
def foldRecord (range : Range) (st : PState) (record : Record) : PState :=
  if recordInRange range record then
    let message := record.message?.getD {}
    let ctx := recCtx record
    let st := sActivity ctx.ts? st
    let s : PStep := (st, initialBucket st ctx.dayKey?)
    let s := sCounts ctx s
    let s := (sLastUser ctx s.1, s.2)
    let s := sTools ctx s
    let s := sStopErr ctx s
    let u := sUsage ctx s
    let s := u.1
    let entryCost? := u.2
    let dur? := computeDuration ctx record message s.1
    let s := (sLatency ctx dur? s.1, s.2)
    let s := (sSwitch ctx s.1, s.2)
    let s := (sTimeline ctx dur? entryCost? s.1, s.2)
    let s := (sWaterfall ctx entryCost? s.1, s.2)
    let st := sCommitBucket s
    sPreview ctx st
  else st

/-- One loop iteration over a raw line: skipped lines leave the state
untouched. -/
def foldLine (range : Range) (st : PState) (line : Line) : PState :=
  match line with
  | none => st
  | some record => foldRecord range st record

/-- One per-day row of a session summary (day bucket plus latency stats). -/
structure SessionDay where
  date : Int
  tokens : ℚ
  cost : ℚ
  messages : Nat
  toolCalls : Nat
  errors : Nat
  latency : Option LatencyStats
deriving DecidableEq

/-- One `{name, count}` tool row. -/
structure ToolRow where
  name : String
  count : Nat
deriving DecidableEq

/-- The `toolUsage` block of a session summary. -/
structure ToolUsage where
  totalCalls : Nat
  uniqueTools : Nat
  tools : List ToolRow
deriving DecidableEq

/-- `systemPromptReport.systemPrompt` from the session store. -/
structure SPPrompt where
  chars? : Option ℚ := none
  projectContextChars? : Option ℚ := none
  nonProjectContextChars? : Option ℚ := none
deriving DecidableEq

/-- `systemPromptReport.skills` from the session store. -/
structure SPSkills where
  promptChars? : Option ℚ := none
deriving DecidableEq

/-- `systemPromptReport.tools` from the session store. -/
structure SPTools where
  listChars? : Option ℚ := none
  schemaChars? : Option ℚ := none
deriving DecidableEq

/-- A `systemPromptReport` object; the summary's `contextWeight` copies
exactly these five members, so the copy is modelled as the report itself. -/
structure SPReport where
  source? : Option String := none
  generatedAt? : Option ℚ := none
  systemPrompt? : Option SPPrompt := none
  skills? : Option SPSkills := none
  tools? : Option SPTools := none
deriving DecidableEq

/-- The `origin` object of a session-store entry. -/
structure StoreOrigin where
  provider? : Option String := none
  chatType? : Option String := none
deriving DecidableEq

/-- A session-store entry (`sessions.json` value), restricted to the fields
the collector reads. -/
structure StoreEntry where
  label? : Option String := none
  channel? : Option String := none
  chatType? : Option String := none
  origin? : Option StoreOrigin := none
  updatedAt? : Option ℚ := none
  systemPromptReport? : Option SPReport := none
  memoryFlushAt? : Option ℚ := none
  memoryFlushCompactionCount? : Option ℚ := none
  modelOverride? : Option String := none
  providerOverride? : Option String := none
deriving DecidableEq

/-- The non-stream inputs of `parseSessionFile`: identifiers, the resolved
store entry (an I/O input), the file's mtime and the collection options. -/
structure ParseParams where
  agentId : String := ""
  stem : String := ""
  sessionId : String := ""
  fileName : String := ""
  filePath : String := ""
  storeKey? : Option String := none
  entry? : Option StoreEntry := none
  mtimeMs : ℚ := 0
  range : Range := { endMs := 0 }
  timelineLimit : Nat := 240
deriving DecidableEq

/-- The session summary returned by `parseSessionFile`. -/
structure SessionSummary where
  id : String
  key : String
  agentId : String
  sessionId : String
  fileName : String
  filePath : String
  label? : Option String
  channel? : Option String
  chatType? : Option String
  updatedAt : ℚ
  firstActivity? : Option ℚ
  lastActivity? : Option ℚ
  durationMs? : Option ℚ
  totals : Totals
  messageCounts : MessageCounts
  toolUsage : ToolUsage
  modelUsage : List ModelBucket
  latency : Option LatencyStats
  daily : List SessionDay
  contextWeight : Option SPReport
  systemPromptReport : Option SPReport
  memoryFlushAt? : Option ℚ
  memoryFlushCompactionCount? : Option ℚ
  modelOverride? : Option String
  providerOverride? : Option String
  preview : List PreviewItem
  timeline : List TimelineEvent
  waterfall : List WaterfallSpan
  modelSwitches : Nat
  uniqueModels : Nat
  activityDates : List Int
deriving DecidableEq

/-- The tail slice `arr.length > limit ? arr.slice(arr.length - limit) : arr`. -/
def tailSlice {α : Type} (limit : Nat) (l : List α) : List α :=
  if l.length > limit then l.drop (l.length - limit) else l

/-- Summary assembly from the final loop state (lines 648-738). -/
def finishSession (p : ParseParams) (st : PState) : SessionSummary :=
  let daily : List SessionDay :=
    List.insertionSort (dateAsc SessionDay.date)
      (st.dailyMap.map fun kv =>
        { date := kv.2.date, tokens := kv.2.tokens, cost := kv.2.cost,
          messages := kv.2.messages, toolCalls := kv.2.toolCalls,
          errors := kv.2.errors,
          latency := computeLatencyStats ((mapGet kv.2.date st.dailyLatencies).getD []) })
  let toolRows : List ToolRow := st.toolMap.map fun kv => { name := kv.1, count := kv.2 }
  let modelUsage := List.insertionSort
    (rankLE (fun m : ModelBucket => m.totals.totalCost) (fun m => m.totals.totalTokens))
    (st.modelMap.map (·.2))
  let sortedTimeline := List.insertionSort (ascLE TimelineEvent.timestamp) st.timeline
  let sortedWaterfall := List.insertionSort (ascLE WaterfallSpan.startTs) st.waterfall
  { id := p.agentId ++ ":" ++ p.stem,
    key := p.storeKey?.getD ("agent:" ++ p.agentId ++ ":" ++ p.stem),
    agentId := p.agentId,
    sessionId := p.sessionId,
    fileName := p.fileName,
    filePath := p.filePath,
    label? := p.entry?.bind (·.label?),
    channel? := (p.entry?.bind (·.channel?)) <|>
      ((p.entry?.bind (·.origin?)).bind (·.provider?)),
    chatType? := (p.entry?.bind (·.chatType?)) <|>
      ((p.entry?.bind (·.origin?)).bind (·.chatType?)),
    updatedAt := (p.entry?.bind (·.updatedAt?)).getD p.mtimeMs,
    firstActivity? := st.firstActivity?,
    lastActivity? := st.lastActivity?,
    durationMs? := match st.firstActivity?, st.lastActivity? with
      | some f, some l => some (max 0 (l - f))
      | _, _ => none,
    totals := st.totals,
    messageCounts := st.counts,
    toolUsage := { totalCalls := (toolRows.map (·.count)).foldl (· + ·) 0,
                   uniqueTools := st.toolMap.length,
                   tools := List.insertionSort (descLE fun r : ToolRow => (r.count : ℚ)) toolRows },
    modelUsage := modelUsage,
    latency := computeLatencyStats st.latencyValues,
    daily := daily,
    contextWeight := p.entry?.bind (·.systemPromptReport?),
    systemPromptReport := p.entry?.bind (·.systemPromptReport?),
    memoryFlushAt? := p.entry?.bind (·.memoryFlushAt?),
    memoryFlushCompactionCount? := p.entry?.bind (·.memoryFlushCompactionCount?),
    modelOverride? := p.entry?.bind (·.modelOverride?),
    providerOverride? := p.entry?.bind (·.providerOverride?),
    preview := st.preview,
    timeline := tailSlice p.timelineLimit sortedTimeline,
    waterfall := tailSlice p.timelineLimit sortedWaterfall,
    modelSwitches := st.modelSwitches,
    uniqueModels := ((modelUsage.map fun m => modelKeyOf m.provider? m.model?).eraseDups).length,
    activityDates := List.insertionSort (dateAsc id) st.activityDates }

/-- `parseSessionFile`: fold the line stream, then assemble the summary. -/
def parseSession (p : ParseParams) (lines : List Line) : SessionSummary :=
  finishSession p (lines.foldl (foldLine p.range) {})

/-- The agent/channel filter of `aggregateSessions`; `none` models the
`null` no-filter value (the orchestrator never passes an empty string). -/
structure SessFilter where
  agent? : Option String := none
  channel? : Option String := none
deriving DecidableEq

/-- The filter predicate of `aggregateSessions` (lines 1031-1039). -/
def sessionMatches (f : SessFilter) (s : SessionSummary) : Bool :=
  (match f.agent? with | none => true | some a => decide (s.agentId = a)) &&
  (match f.channel? with | none => true | some c => decide (s.channel?.getD "" = c))

/-- A fleet `byModel` row. -/
structure ModelRow where
  provider? : Option String := none
  model? : Option String := none
  count : Nat := 0
  sessions : Nat := 0
  totals : Totals := createTotals
deriving DecidableEq

/-- A fleet `byProvider` row. -/
structure ProviderRow where
  provider? : Option String := none
  count : Nat := 0
  sessions : Nat := 0
  totals : Totals := createTotals
deriving DecidableEq

/-- A fleet `byAgent` row. -/
structure AgentRow where
  agentId : String
  sessions : Nat := 0
  totals : Totals := createTotals
deriving DecidableEq

/-- A fleet `byChannel` row. -/
structure ChannelRow where
  channel : String
  sessions : Nat := 0
  totals : Totals := createTotals
deriving DecidableEq

/-- A fleet `context` row. -/
structure ContextRow where
  id : String
  key : String
  label? : Option String
  agentId : String
  updatedAt : ℚ
  chars : ℚ
  projectChars? : Option ℚ
  nonProjectChars? : Option ℚ
  skillsChars : ℚ
  toolsListChars : ℚ
  toolsSchemaChars : ℚ
deriving DecidableEq

/-- The fleet latency accumulator (lines 1059-1065); `min? = none` models
the `POSITIVE_INFINITY` initial minimum. -/
structure LatAcc where
  count : Nat := 0
  sum : ℚ := 0
  min? : Option ℚ := none
  max : ℚ := 0
  p95Max : ℚ := 0
deriving DecidableEq

/-- A fleet daily accumulator row. -/
structure FleetDayAcc where
  date : Int
  tokens : ℚ := 0
  cost : ℚ := 0
  messages : Nat := 0
  toolCalls : Nat := 0
  errors : Nat := 0
  latencyCount : Nat := 0
  latencySum : ℚ := 0
  latencyMin? : Option ℚ := none
  latencyMax : ℚ := 0
  latencyP95 : ℚ := 0
deriving DecidableEq

/-- A fleet daily output row. -/
structure FleetDay where
  date : Int
  tokens : ℚ
  cost : ℚ
  messages : Nat
  toolCalls : Nat
  errors : Nat
  latency : Option LatencyStats
deriving DecidableEq

/-- The accumulators of the aggregation loop. -/
structure AggState where
  totals : Totals := createTotals
  messages : MessageCounts := {}
  toolsMap : List (String × Nat) := []
  byModelMap : List (String × ModelRow) := []
  byProviderMap : List (String × ProviderRow) := []
  byAgentMap : List (String × AgentRow) := []
  byChannelMap : List (String × ChannelRow) := []
  dailyMap : List (Int × FleetDayAcc) := []
  contextRows : List ContextRow := []
  latency : LatAcc := {}
deriving DecidableEq

/-- The latency fold of one session (lines 1077-1083). -/
def aggLatency (acc : LatAcc) (lat? : Option LatencyStats) : LatAcc :=
  match lat? with
  | some l =>
    if l.count ≠ 0 then
      { count := acc.count + l.count,
        sum := acc.sum + l.avgMs * l.count,
        min? := some (match acc.min? with | none => l.minMs | some m => min m l.minMs),
        max := max acc.max l.maxMs,
        p95Max := max acc.p95Max l.p95Ms }
    else acc
  | none => acc

/-- The per-model fold of one session (lines 1089-1116). -/
def aggModelRow (acc : AggState) (model : ModelBucket) : AggState :=
  let modelKey := modelKeyOf model.provider? model.model?
  let modelRow := (mapGet modelKey acc.byModelMap).getD
    { provider? := model.provider?, model? := model.model? }
  let modelRow := { modelRow with
    count := modelRow.count + model.count,
    sessions := modelRow.sessions + 1,
    totals := mergeTotals modelRow.totals model.totals }
  let providerKey := model.provider?.getD "unknown"
  let providerRow := (mapGet providerKey acc.byProviderMap).getD
    { provider? := model.provider? }
  let providerRow := { providerRow with
    count := providerRow.count + model.count,
    sessions := providerRow.sessions + 1,
    totals := mergeTotals providerRow.totals model.totals }
  { acc with
    byModelMap := mapSet modelKey modelRow acc.byModelMap,
    byProviderMap := mapSet providerKey providerRow acc.byProviderMap }

/-- The daily fold of one session day (lines 1137-1165). -/
def aggDay (acc : AggState) (day : SessionDay) : AggState :=
  let d := (mapGet day.date acc.dailyMap).getD { date := day.date }
  let d := { d with
    tokens := d.tokens + day.tokens,
    cost := d.cost + day.cost,
    messages := d.messages + day.messages,
    toolCalls := d.toolCalls + day.toolCalls,
    errors := d.errors + day.errors }
  let d := match day.latency with
    | some l =>
      if l.count ≠ 0 then
        { d with
          latencyCount := d.latencyCount + l.count,
          latencySum := d.latencySum + l.avgMs * l.count,
          latencyMin? := some (match d.latencyMin? with | none => l.minMs | some m => min m l.minMs),
          latencyMax := max d.latencyMax l.maxMs,
          latencyP95 := max d.latencyP95 l.p95Ms }
      else d
    | none => d
  { acc with dailyMap := mapSet day.date d acc.dailyMap }

/-- The context-row fold of one session (lines 1167-1181). -/
def aggContext (acc : AggState) (session : SessionSummary) : AggState :=
  match session.contextWeight with
  | some cw =>
    match cw.systemPrompt? with
    | some sp =>
      match sp.chars? with
      | some chars =>
        if chars ≠ 0 then
          { acc with contextRows := acc.contextRows ++
              [{ id := session.id, key := session.key, label? := session.label?,
                 agentId := session.agentId, updatedAt := session.updatedAt,
                 chars := chars,
                 projectChars? := sp.projectContextChars?,
                 nonProjectChars? := sp.nonProjectContextChars?,
                 skillsChars := ((cw.skills?.bind (·.promptChars?)).getD 0),
                 toolsListChars := ((cw.tools?.bind (·.listChars?)).getD 0),
                 toolsSchemaChars := ((cw.tools?.bind (·.schemaChars?)).getD 0) }] }
        else acc
      | none => acc
    | none => acc
  | none => acc

/-- The whole aggregation loop body for one session (lines 1067-1182). -/
def aggSession (acc : AggState) (session : SessionSummary) : AggState :=
  let acc := { acc with
    totals := mergeTotals acc.totals session.totals,
    messages :=
      { total := acc.messages.total + session.messageCounts.total,
        user := acc.messages.user + session.messageCounts.user,
        assistant := acc.messages.assistant + session.messageCounts.assistant,
        toolCalls := acc.messages.toolCalls + session.messageCounts.toolCalls,
        toolResults := acc.messages.toolResults + session.messageCounts.toolResults,
        errors := acc.messages.errors + session.messageCounts.errors },
    latency := aggLatency acc.latency session.latency }
  let acc := { acc with
    toolsMap := session.toolUsage.tools.foldl
      (fun m t => mapSet t.name ((mapGet t.name m).getD 0 + t.count) m) acc.toolsMap }
  let acc := session.modelUsage.foldl aggModelRow acc
  let acc :=
    let agentRow := (mapGet session.agentId acc.byAgentMap).getD { agentId := session.agentId }
    let agentRow := { agentRow with
      sessions := agentRow.sessions + 1,
      totals := mergeTotals agentRow.totals session.totals }
    { acc with byAgentMap := mapSet session.agentId agentRow acc.byAgentMap }
  let acc :=
    let channelKey := session.channel?.getD "unknown"
    let channelRow := (mapGet channelKey acc.byChannelMap).getD { channel := channelKey }
    let channelRow := { channelRow with
      sessions := channelRow.sessions + 1,
      totals := mergeTotals channelRow.totals session.totals }
    { acc with byChannelMap := mapSet channelKey channelRow acc.byChannelMap }
  let acc := session.daily.foldl aggDay acc
  aggContext acc session

/-- The ranked tables and merged daily series of the fleet aggregate. -/
structure Aggregates where
  daily : List FleetDay
  tools : List ToolRow
  byModel : List ModelRow
  byProvider : List ProviderRow
  byAgent : List AgentRow
  byChannel : List ChannelRow
  context : List ContextRow
deriving DecidableEq

/-- The result of `aggregateSessions`. -/
structure Aggregated where
  filtered : List SessionSummary
  totals : Totals
  messages : MessageCounts
  latency : Option LatencyStats
  aggregates : Aggregates
deriving DecidableEq

/-- `aggregateSessions({sessions, filter})`. -/
def aggregateSessions (sessions : List SessionSummary) (filter : SessFilter) : Aggregated :=
  let filtered := sessions.filter (sessionMatches filter)
  let acc := filtered.foldl aggSession {}
  let latencyStats : Option LatencyStats :=
    if acc.latency.count > 0 then
      some { count := acc.latency.count,
             avgMs := acc.latency.sum / acc.latency.count,
             minMs := acc.latency.min?.getD 0,
             maxMs := acc.latency.max,
             p95Ms := acc.latency.p95Max }
    else none
  let daily : List FleetDay :=
    List.insertionSort (dateAsc FleetDay.date)
      (acc.dailyMap.map fun kv =>
        { date := kv.2.date, tokens := kv.2.tokens, cost := kv.2.cost,
          messages := kv.2.messages, toolCalls := kv.2.toolCalls, errors := kv.2.errors,
          latency :=
            if kv.2.latencyCount > 0 then
              some { count := kv.2.latencyCount,
                     avgMs := kv.2.latencySum / kv.2.latencyCount,
                     minMs := kv.2.latencyMin?.getD 0,
                     maxMs := kv.2.latencyMax,
                     p95Ms := kv.2.latencyP95 }
            else none })
  { filtered := filtered,
    totals := acc.totals,
    messages := acc.messages,
    latency := latencyStats,
    aggregates :=
      { daily := daily,
        tools := List.insertionSort (descLE fun r : ToolRow => (r.count : ℚ))
          (acc.toolsMap.map fun kv => { name := kv.1, count := kv.2 }),
        byModel := List.insertionSort
          (rankLE (fun r : ModelRow => r.totals.totalCost) (fun r => r.totals.totalTokens))
          (acc.byModelMap.map (·.2)),
        byProvider := List.insertionSort
          (rankLE (fun r : ProviderRow => r.totals.totalCost) (fun r => r.totals.totalTokens))
          (acc.byProviderMap.map (·.2)),
        byAgent := List.insertionSort
          (rankLE (fun r : AgentRow => r.totals.totalCost) (fun r => r.totals.totalTokens))
          (acc.byAgentMap.map (·.2)),
        byChannel := List.insertionSort
          (rankLE (fun r : ChannelRow => r.totals.totalCost) (fun r => r.totals.totalTokens))
          (acc.byChannelMap.map (·.2)),
        context := List.insertionSort (descLE ContextRow.chars) acc.contextRows } }

/-- `calcMean(values)`. -/
def calcMean (values : List ℚ) : ℚ :=
  if values = [] then 0 else values.sum / values.length

/-- The (sample) variance underlying `calcStdDev`: `calcStdDev` returns
`Math.sqrt(Math.max(0, variance))`; square roots are not representable in
`ℚ`, so jitter conditions are embedded in squared form (see
`buildLatencyJitter`). -/
def calcVariance (values : List ℚ) (mean : ℚ) : ℚ :=
  if values.length < 2 then 0
  else max 0 ((values.map fun n => (n - mean) * (n - mean)).sum / (values.length - 1 : ℚ))

/-- One reported token spike. -/
structure TokenSpike where
  date : Int
  tokens : ℚ
  baselineTokens : ℚ
  ratio : ℚ
deriving DecidableEq

/-- One day of the jitter report. -/
structure JitterDay where
  date : Int
  avgMs? : Option ℚ
  p95Ms? : Option ℚ
deriving DecidableEq

/-- The latency-jitter report. `coefficientOfVariationSq` carries the square
of the source's CV (= sample stddev / mean): `CV ≥ 0.45 ⟺ CV² ≥ 0.45²`
since both sides are non-negative and squaring is monotone there. -/
structure LatencyJitter where
  coefficientOfVariationSq : ℚ
  globalP95ToAvgRatio : ℚ
  days : List JitterDay
deriving DecidableEq

/-- One model entry of a model-switching report row. -/
structure SwitchModelRow where
  provider : String
  model : String
  tokens : ℚ
  cost : ℚ
deriving DecidableEq

/-- One model-switching report row. -/
structure SwitchRow where
  sessionId : String
  key : String
  agentId : String
  label? : Option String
  switches : Nat
  uniqueModels : Nat
  models : List SwitchModelRow
  updatedAt : ℚ
deriving DecidableEq

/-- The anomaly report. -/
structure Anomalies where
  tokenSpikes : List TokenSpike
  latencyJitter : Option LatencyJitter
  modelSwitching : List SwitchRow
deriving DecidableEq

/-- The token-spike heuristic of `buildAnomalies` (lines 893-910). -/
def buildTokenSpikes (daily : List FleetDay) : List TokenSpike :=
  if daily.length ≥ 4 then
    let ordered := List.insertionSort (dateAsc FleetDay.date) daily
    match ordered.getLast? with
    | some last =>
      let previous := (ordered.dropLast.map (·.tokens)).filter (fun n => decide (n > 0))
      if previous.length ≥ 3 then
        let baseline := calcMean previous
        let ratio := if baseline > 0 then last.tokens / baseline else 0
        if last.tokens > 5000 ∧ ratio ≥ 2.3 then
          [{ date := last.date, tokens := last.tokens,
             baselineTokens := baseline, ratio := ratio }]
        else []
      else []
    | none => []
  else []

/-- The latency-jitter heuristic of `buildAnomalies` (lines 912-930), with
the CV condition in squared form (see `LatencyJitter`). -/
def buildLatencyJitter (daily : List FleetDay) (latency? : Option LatencyStats) :
    Option LatencyJitter :=
  let dailyLatency := (daily.map fun d =>
    ({ date := d.date, avgMs? := d.latency.map (·.avgMs),
       p95Ms? := d.latency.map (·.p95Ms) } : JitterDay)).filter (·.avgMs?.isSome)
  if dailyLatency.length ≥ 4 then
    let avgs := dailyLatency.filterMap (·.avgMs?)
    let mean := calcMean avgs
    let variance := calcVariance avgs mean
    let cvSq := if mean > 0 then variance / (mean * mean) else 0
    let globalP95Ratio := match latency? with
      | some l => if l.avgMs > 0 ∧ l.p95Ms > 0 then l.p95Ms / l.avgMs else 0
      | none => 0
    if cvSq ≥ (0.45 : ℚ) ^ 2 ∨ globalP95Ratio ≥ 2.2 then
      some { coefficientOfVariationSq := cvSq,
             globalP95ToAvgRatio := globalP95Ratio,
             days := dailyLatency }
    else none
  else none

/-- The model-switching report of `buildAnomalies` (lines 932-949). -/
def buildModelSwitching (sessions : List SessionSummary) : List SwitchRow :=
  List.insertionSort
    (rankLE (fun r : SwitchRow => (r.switches : ℚ)) (fun r => (r.uniqueModels : ℚ)))
    ((sessions.filter fun s => decide (s.uniqueModels > 1) || decide (s.modelSwitches > 0)).map
      fun s =>
        { sessionId := s.sessionId, key := s.key, agentId := s.agentId,
          label? := s.label?, switches := s.modelSwitches,
          uniqueModels := s.uniqueModels,
          models := (s.modelUsage.take 8).map fun m =>
            { provider := m.provider?.getD "unknown", model := m.model?.getD "unknown",
              tokens := m.totals.totalTokens, cost := m.totals.totalCost },
          updatedAt := s.updatedAt })

/-- `buildAnomalies({daily, sessions, latency})`. -/
def buildAnomalies (daily : List FleetDay) (sessions : List SessionSummary)
    (latency? : Option LatencyStats) : Anomalies :=
  { tokenSpikes := buildTokenSpikes daily,
    latencyJitter := buildLatencyJitter daily latency?,
    modelSwitching := buildModelSwitching sessions }

/-- The session ordering applied by `collectSessionsFromState` (line 1312):
most recently updated first (`updatedAt` is always set in a summary, so the
`?? 0` fallback of the comparator never fires). -/
def collectSessionsOrder (sessions : List SessionSummary) : List SessionSummary :=
  List.insertionSort (descLE SessionSummary.updatedAt) sessions

/-- The `sessions` list of `collectOpenClawMetrics`'s payload
(lines 1345-1361): the scan order from `collectSessionsFromState`, filtered
by `aggregateSessions`, sliced to `sessionLimit`. -/
def payloadTopSessions (sessions : List SessionSummary) (filter : SessFilter)
    (sessionLimit : Nat) : List SessionSummary :=
  ((aggregateSessions (collectSessionsOrder sessions) filter).filtered).take sessionLimit

/-- Modelled from the claim's words (claim C3): the first `sessionLimit`
sessions of the filtered set sorted by total cost descending, ties by total
tokens descending. Compared against `payloadTopSessions`. -/
def claimTopSessions (sessions : List SessionSummary) (filter : SessFilter)
    (sessionLimit : Nat) : List SessionSummary :=
  (List.insertionSort
    (rankLE (fun s : SessionSummary => s.totals.totalCost) (fun s => s.totals.totalTokens))
    (sessions.filter (sessionMatches filter))).take sessionLimit

/-- Modelled from the claim's words (claim C4): a spike is reported exactly
when the series has ≥ 4 days, at least 3 of the non-most-recent days have
nonzero tokens, and the most recent day's tokens exceed 5000 with a ratio to
the baseline (mean of those nonzero days) of at least 2.3. Compared against
`buildTokenSpikes`. -/
def tokenSpikeSpec (daily : List FleetDay) : List TokenSpike :=
  let ordered := List.insertionSort (dateAsc FleetDay.date) daily
  match ordered.getLast? with
  | none => []
  | some mostRecent =>
    let nonzeroPrev := (ordered.dropLast.map (·.tokens)).filter (fun n => decide (0 < n))
    let baseline := calcMean nonzeroPrev
    if 4 ≤ daily.length ∧ 3 ≤ nonzeroPrev.length ∧ 5000 < mostRecent.tokens ∧
        (2.3 : ℚ) ≤ mostRecent.tokens / baseline then
      [{ date := mostRecent.date, tokens := mostRecent.tokens,
         baselineTokens := baseline, ratio := mostRecent.tokens / baseline }]
    else []

/-- The `provider::model` identity the parse loop assigns to a record, when
the record is an in-scope assistant turn carrying a non-unknown identity
(claim C5's spec side, from the claim's words). -/
def assistantKeyOf (record : Record) : Option String :=
  let message := record.message?.getD {}
  let key := modelKeyOf (message.provider? <|> record.provider?)
    (message.model? <|> record.model?)
  if validRole message.role? = some "assistant" ∧ key ≠ "unknown::unknown" then
    some key
  else none

/-- Number of positions whose key differs from the most recent preceding
key, starting from `prev?` (claim C5's spec side). -/
def switchesFrom (prev? : Option String) : List String → Nat
  | [] => 0
  | k :: ks =>
    (if prev?.isSome ∧ prev? ≠ some k then 1 else 0) + switchesFrom (some k) ks

/-- Claim C1's ranking-order property: for all adjacent pairs `(a, b)` of
the list, `cost a ≥ cost b`, and when the costs are equal,
`tok a ≥ tok b`. -/
def rankedOrder {α : Type} (cost tok : α → ℚ) (l : List α) : Prop :=
  List.Chain' (fun a b => cost b ≤ cost a ∧ (cost a = cost b → tok b ≤ tok a)) l

/-! Concrete inputs used by witnesses and counterexamples. -/

/-- A raw usage record `{input: 5, output: 3}` (spec's usage-defaulting
scenario). -/
def usageEx : RawUsage := { input? := some 5, output? := some 3 }

/-- A raw usage record `{input: 5, output: 3, total: 2}`: an independently
supplied total smaller than the sum of the parts. -/
def usageCex : RawUsage := { input? := some 5, output? := some 3, total? := some 2 }

/-- The tuple `normalizeUsage` returns for `usageEx`. -/
def tupleEx : UsageTuple := ⟨5, 3, 0, 0, 8⟩

/-- The spec's latency sample set. -/
def latEx : List ℚ := [10, 20, 30, 40, 50, 60, 70, 80, 90, 100]

/-- The stats `computeLatencyStats` returns for `latEx`. -/
def latStatsEx : LatencyStats :=
  { count := 10, avgMs := 55, p95Ms := 100, minMs := 10, maxMs := 100 }

/-- A fleet day with the given date ordinal and token count and nothing
else. -/
def dayOf (date : Int) (tokens : ℚ) : FleetDay :=
  { date, tokens, cost := 0, messages := 0, toolCalls := 0, errors := 0, latency := none }

/-- The spec's token-spike scenario: daily tokens `[1000,1100,900,1050,6000]`. -/
def spikeDays : List FleetDay :=
  [dayOf 1 1000, dayOf 2 1100, dayOf 3 900, dayOf 4 1050, dayOf 5 6000]

/-- The spec's no-spike scenario: daily tokens `[1000,1000,1000,1000,1800]`. -/
def noSpikeDays : List FleetDay :=
  [dayOf 1 1000, dayOf 2 1000, dayOf 3 1000, dayOf 4 1000, dayOf 5 1800]

/-- An assistant turn with the given model name and a one-token usage. -/
def assistantRecOf (m : String) : Record :=
  { message? := some
      { role? := some "assistant"
        model? := some m
        usage? := some { input? := some 1 } } }

/-- Parse parameters with an empty range end and defaults everywhere. -/
def paramsEx : ParseParams := { range := { endMs := 0 } }

/-- The spec's model-switch scenario: assistant turns modeled A, A, B, B, A. -/
def switchLines : List Line :=
  [some (assistantRecOf "A"), some (assistantRecOf "A"), some (assistantRecOf "B"),
   some (assistantRecOf "B"), some (assistantRecOf "A")]

/-- An assistant turn carrying an explicit negative `durationMs` (a raw
record shape the parser accepts verbatim as a latency sample). -/
def negLatRec : Record :=
  { message? := some { role? := some "assistant", durationMs? := some (-5) } }

/-- An assistant turn with usage and a nested cost breakdown of total 10. -/
def costRec : Record :=
  { message? := some
      { role? := some "assistant"
        usage? := some { input? := some 1, cost? := some { total? := some 10 } } } }

/-- A record with usage but neither a timestamp nor a recognized role. -/
def bareUsageRec : Record := { usage? := some { input? := some 2 } }

/-- An assistant turn with usage and no cost information anywhere. -/
def missingCostRec : Record :=
  { message? := some { role? := some "assistant", usage? := some { input? := some 1 } } }

/-- Claim C3's counterexample sessions: a cheap but recently-updated session
and an expensive but older one (both obtained from the parser itself). -/
def cexSessions : List SessionSummary :=
  [parseSession { paramsEx with agentId := "a1", mtimeMs := 2 } [],
   parseSession { paramsEx with agentId := "a2", mtimeMs := 1 } [some costRec]]

/-! ## Theorems -/

set_option allowUnsafeReducibility true

attribute [local semireducible] Rat.add Rat.mul Rat.inv Rat.sub Rat.div Rat.ofScientific

set_option maxRecDepth 16000

/-- `rankLE` spelled as a lexicographic condition. -/
theorem rankLE_iff {α : Type} (c t : α → ℚ) (a b : α) :
    rankLE c t a b ↔ (c b < c a ∨ (c a = c b ∧ t b ≤ t a)) := by
  unfold rankLE
  rcases eq_or_ne (c b - c a) 0 with h | h
  · have hc : c a = c b := (sub_eq_zero.mp h).symm
    simp [h, hc, sub_nonpos]
  · have hc : ¬(c a = c b) := fun hh => h (by rw [hh, sub_self])
    simp [h, sub_neg, hc]

/-- `rankLE` is total. -/
theorem rankLE_total {α : Type} (c t : α → ℚ) :
    ∀ a b, rankLE c t a b ∨ rankLE c t b a := by
  intro a b
  rw [rankLE_iff, rankLE_iff]
  rcases lt_trichotomy (c a) (c b) with h | h | h
  · exact Or.inr (Or.inl h)
  · rcases le_total (t b) (t a) with ht | ht
    · exact Or.inl (Or.inr ⟨h, ht⟩)
    · exact Or.inr (Or.inr ⟨h.symm, ht⟩)
  · exact Or.inl (Or.inl h)

/-- `rankLE` is transitive. -/
theorem rankLE_trans {α : Type} (c t : α → ℚ) :
    ∀ a b d, rankLE c t a b → rankLE c t b d → rankLE c t a d := by
  intro a b d hab hbd
  rw [rankLE_iff] at hab hbd ⊢
  rcases hab with h1 | ⟨h1, h1t⟩
  · rcases hbd with h2 | ⟨h2, h2t⟩
    · exact Or.inl (h2.trans h1)
    · exact Or.inl (h2 ▸ h1)
  · rcases hbd with h2 | ⟨h2, h2t⟩
    · exact Or.inl (by rw [h1]; exact h2)
    · exact Or.inr ⟨h1.trans h2, h2t.trans h1t⟩

/-- Sorting with `rankLE` yields claim C1's adjacent-pair property. -/
theorem rankedOrder_insertionSort {α : Type} (c t : α → ℚ) (l : List α) :
    rankedOrder c t (List.insertionSort (rankLE c t) l) := by
  haveI : IsTotal α (rankLE c t) := ⟨rankLE_total c t⟩
  haveI : IsTrans α (rankLE c t) := ⟨rankLE_trans c t⟩
  refine List.Pairwise.chain' ?_
  refine (List.sorted_insertionSort (rankLE c t) l).imp ?_
  intro a b hab
  rw [rankLE_iff] at hab
  rcases hab with h | ⟨h, ht⟩
  · exact ⟨h.le, fun he => absurd h (by rw [he]; exact lt_irrefl _)⟩
  · exact ⟨h.ge, fun _ => ht⟩

/-- A relation that always holds chains over every list. -/
theorem chain'_of_forall {α : Type} {R : α → α → Prop} (h : ∀ a b, R a b) :
    ∀ l : List α, List.Chain' R l := by
  intro l
  induction l with
  | nil => exact List.chain'_nil
  | cons a l ih =>
    cases l with
    | nil => simp
    | cons b l' => exact List.chain'_cons.mpr ⟨h a b, ih⟩

/-- The `byModel` table is the `sortByCostThenTokens`-sorted row list. -/
theorem aggregateSessions_byModel (sessions : List SessionSummary) (filter : SessFilter) :
    (aggregateSessions sessions filter).aggregates.byModel =
      List.insertionSort
        (rankLE (fun r : ModelRow => r.totals.totalCost) (fun r => r.totals.totalTokens))
        (((sessions.filter (sessionMatches filter)).foldl aggSession {}).byModelMap.map (·.2)) :=
  rfl

/-- The `byProvider` table is the `sortByCostThenTokens`-sorted row list. -/
theorem aggregateSessions_byProvider (sessions : List SessionSummary) (filter : SessFilter) :
    (aggregateSessions sessions filter).aggregates.byProvider =
      List.insertionSort
        (rankLE (fun r : ProviderRow => r.totals.totalCost) (fun r => r.totals.totalTokens))
        (((sessions.filter (sessionMatches filter)).foldl aggSession {}).byProviderMap.map (·.2)) :=
  rfl

/-- The `byAgent` table is the `sortByCostThenTokens`-sorted row list. -/
theorem aggregateSessions_byAgent (sessions : List SessionSummary) (filter : SessFilter) :
    (aggregateSessions sessions filter).aggregates.byAgent =
      List.insertionSort
        (rankLE (fun r : AgentRow => r.totals.totalCost) (fun r => r.totals.totalTokens))
        (((sessions.filter (sessionMatches filter)).foldl aggSession {}).byAgentMap.map (·.2)) :=
  rfl

/-- The `byChannel` table is the `sortByCostThenTokens`-sorted row list. -/
theorem aggregateSessions_byChannel (sessions : List SessionSummary) (filter : SessFilter) :
    (aggregateSessions sessions filter).aggregates.byChannel =
      List.insertionSort
        (rankLE (fun r : ChannelRow => r.totals.totalCost) (fun r => r.totals.totalTokens))
        (((sessions.filter (sessionMatches filter)).foldl aggSession {}).byChannelMap.map (·.2)) :=
  rfl

/-- **C1.** Every ranked table of the fleet aggregator satisfies the
adjacent-pair ranking order: total cost descending with ties broken by
total tokens descending. The `byModel`, `byProvider`, `byAgent` and
`byChannel` tables are sorted with `sortByCostThenTokens`; `tools` rows
carry no cost or token totals at all (only `{name, count}`), so both claim
projections are constantly 0 there and the stated inequalities hold
degenerately. -/
theorem claim_C1 (sessions : List SessionSummary) (filter : SessFilter) :
    rankedOrder (fun r : ModelRow => r.totals.totalCost) (fun r => r.totals.totalTokens)
      (aggregateSessions sessions filter).aggregates.byModel ∧
    rankedOrder (fun r : ProviderRow => r.totals.totalCost) (fun r => r.totals.totalTokens)
      (aggregateSessions sessions filter).aggregates.byProvider ∧
    rankedOrder (fun r : AgentRow => r.totals.totalCost) (fun r => r.totals.totalTokens)
      (aggregateSessions sessions filter).aggregates.byAgent ∧
    rankedOrder (fun r : ChannelRow => r.totals.totalCost) (fun r => r.totals.totalTokens)
      (aggregateSessions sessions filter).aggregates.byChannel ∧
    rankedOrder (fun _ : ToolRow => 0) (fun _ => 0)
      (aggregateSessions sessions filter).aggregates.tools := by
  refine ⟨?_, ?_, ?_, ?_, ?_⟩
  · rw [aggregateSessions_byModel]; exact rankedOrder_insertionSort _ _ _
  · rw [aggregateSessions_byProvider]; exact rankedOrder_insertionSort _ _ _
  · rw [aggregateSessions_byAgent]; exact rankedOrder_insertionSort _ _ _
  · rw [aggregateSessions_byChannel]; exact rankedOrder_insertionSort _ _ _
  · exact chain'_of_forall (fun a b => ⟨le_refl 0, fun _ => le_refl 0⟩) _

/-- `descLE` spelled without subtraction. -/
theorem descLE_iff {α : Type} (c : α → ℚ) (a b : α) : descLE c a b ↔ c b ≤ c a := sub_nonpos

/-- `descLE` is total. -/
theorem descLE_total {α : Type} (c : α → ℚ) : ∀ a b, descLE c a b ∨ descLE c b a := by
  intro a b
  rw [descLE_iff, descLE_iff]
  exact (le_total (c b) (c a))

/-- `descLE` is transitive. -/
theorem descLE_trans {α : Type} (c : α → ℚ) :
    ∀ a b d, descLE c a b → descLE c b d → descLE c a d := by
  intro a b d hab hbd
  rw [descLE_iff] at hab hbd ⊢
  exact hbd.trans hab

/-- The filtered set of `aggregateSessions` is a plain `filter`. -/
theorem aggregateSessions_filtered (sessions : List SessionSummary) (filter : SessFilter) :
    (aggregateSessions sessions filter).filtered = sessions.filter (sessionMatches filter) :=
  rfl

/-- **C3 (amended).** The payload's sessions list is the first
`sessionLimit` sessions of the filtered set taken in the scan order of
`collectSessionsFromState` — most recently updated first (`updatedAt`
descending) — not in the fleet cost ranking order; in particular every
adjacent pair of the output is ordered by `updatedAt` descending. -/
theorem claim_C3_amended (sessions : List SessionSummary) (filter : SessFilter) (limit : Nat) :
    payloadTopSessions sessions filter limit =
      ((List.insertionSort (descLE SessionSummary.updatedAt) sessions).filter
        (sessionMatches filter)).take limit ∧
    List.Chain' (fun a b => b.updatedAt ≤ a.updatedAt)
      (payloadTopSessions sessions filter limit) := by
  constructor
  · rfl
  · haveI : IsTotal SessionSummary (descLE SessionSummary.updatedAt) :=
      ⟨descLE_total SessionSummary.updatedAt⟩
    haveI : IsTrans SessionSummary (descLE SessionSummary.updatedAt) :=
      ⟨descLE_trans SessionSummary.updatedAt⟩
    have hs : (List.insertionSort (descLE SessionSummary.updatedAt) sessions).Pairwise
        (fun a b => b.updatedAt ≤ a.updatedAt) :=
      (List.sorted_insertionSort (descLE SessionSummary.updatedAt) sessions).imp
        (fun h => (descLE_iff SessionSummary.updatedAt _ _).mp h)
    have hf := hs.filter (sessionMatches filter)
    exact (List.Pairwise.sublist (List.take_sublist limit _) hf).chain'

/-- **C3 counterexample.** With a cheap recently-updated session and an
expensive older one and `sessionLimit = 1`, the payload's sessions list
(recency order) differs from the first element of the cost-ranked filtered
set, refuting the claim as stated. -/
theorem claim_C3_counterexample :
    payloadTopSessions cexSessions {} 1 ≠ claimTopSessions cexSessions {} 1 := by decide

/-- **C2 (amended).** Every field of a returned usage tuple is
non-negative, and the total can exceed the sum of the parts only when the
source supplied an independent total (without one, the total is at most the
sum of the clamped parts, and equals it whenever the defaulted raw parts
are non-negative). An independently supplied total is used verbatim
(clamped at 0) and may be smaller than the sum of the parts. -/
theorem claim_C2_amended :
    (∀ (raw : Option RawUsage) (u : UsageTuple), normalizeUsage raw = some u →
      0 ≤ u.input ∧ 0 ≤ u.output ∧ 0 ≤ u.cacheRead ∧ 0 ≤ u.cacheWrite ∧ 0 ≤ u.total) ∧
    (∀ (record : RawUsage) (u : UsageTuple), normalizeUsage (some record) = some u →
      rawTotal? record = none →
      u.total ≤ u.input + u.output + u.cacheRead + u.cacheWrite) ∧
    (∀ (record : RawUsage) (u : UsageTuple), normalizeUsage (some record) = some u →
      rawTotal? record = none →
      0 ≤ rawInput record → 0 ≤ rawOutput record →
      0 ≤ rawCacheRead record → 0 ≤ rawCacheWrite record →
      u.total = u.input + u.output + u.cacheRead + u.cacheWrite) := by
  refine ⟨?_, ?_, ?_⟩
  · rintro (_ | record) u h
    · exact absurd h (by simp [normalizeUsage])
    · simp only [normalizeUsage] at h
      split at h
      · exact absurd h (by simp)
      · simp only [Option.some.injEq] at h
        subst h
        exact ⟨le_max_left 0 _, le_max_left 0 _, le_max_left 0 _, le_max_left 0 _,
          le_max_left 0 _⟩
  · intro record u h ht
    simp only [normalizeUsage, ht, Option.getD_none] at h
    split at h
    · exact absurd h (by simp)
    · simp only [Option.some.injEq] at h
      subst h
      have h1 := le_max_right (0 : ℚ) (rawInput record)
      have h2 := le_max_right (0 : ℚ) (rawOutput record)
      have h3 := le_max_right (0 : ℚ) (rawCacheRead record)
      have h4 := le_max_right (0 : ℚ) (rawCacheWrite record)
      have n1 := le_max_left (0 : ℚ) (rawInput record)
      have n2 := le_max_left (0 : ℚ) (rawOutput record)
      have n3 := le_max_left (0 : ℚ) (rawCacheRead record)
      have n4 := le_max_left (0 : ℚ) (rawCacheWrite record)
      exact max_le (by linarith) (by linarith)
  · intro record u h ht hi ho hcr hcw
    simp only [normalizeUsage, ht, Option.getD_none] at h
    split at h
    · exact absurd h (by simp)
    · simp only [Option.some.injEq] at h
      subst h
      simp only [max_eq_right hi, max_eq_right ho, max_eq_right hcr, max_eq_right hcw,
        max_eq_right (by linarith : (0 : ℚ) ≤ rawInput record + rawOutput record +
          rawCacheRead record + rawCacheWrite record)]

/-- **C2 counterexample.** The raw record `{input: 5, output: 3, total: 2}`
is accepted, yet its returned total (2) is below the sum of its parts (8):
the claim's "total is never less than input + output + cacheRead +
cacheWrite" fails. -/
theorem claim_C2_counterexample :
    ¬ (∀ (raw : Option RawUsage) (u : UsageTuple), normalizeUsage raw = some u →
        u.input + u.output + u.cacheRead + u.cacheWrite ≤ u.total) := by
  intro h
  have h2 := h (some usageCex) ⟨5, 3, 0, 0, 2⟩ (by decide)
  norm_num [usageCex] at h2

/-- Witness for C2: the amended theorem applied to `{input: 5, output: 3}`. -/
theorem claim_C2_witness :
    (0 ≤ tupleEx.input ∧ 0 ≤ tupleEx.output ∧ 0 ≤ tupleEx.cacheRead ∧
      0 ≤ tupleEx.cacheWrite ∧ 0 ≤ tupleEx.total) ∧
    tupleEx.total ≤ tupleEx.input + tupleEx.output + tupleEx.cacheRead + tupleEx.cacheWrite ∧
    tupleEx.total = tupleEx.input + tupleEx.output + tupleEx.cacheRead + tupleEx.cacheWrite :=
  ⟨claim_C2_amended.1 (some usageEx) tupleEx (by decide),
   claim_C2_amended.2.1 usageEx tupleEx (by decide) (by decide),
   claim_C2_amended.2.2 usageEx tupleEx (by decide) (by decide) (by decide) (by decide)
     (by decide) (by decide)⟩

/-- **C8.** For every non-empty sample list, the computed p95 is the element
at index `⌊0.95 × n⌋` of the ascending-sorted samples (that index is always
in bounds, so the source's `Math.min` clamp never alters it); and for the
samples `[10,...,100]` the p95 is 100. -/
theorem claim_C8 :
    (∀ (values : List ℚ) (s : LatencyStats), values ≠ [] →
      computeLatencyStats values = some s →
      Nat.floor ((values.length : ℚ) * 0.95) < values.length ∧
      s.p95Ms = (List.insertionSort numAsc values).getD
        (Nat.floor ((values.length : ℚ) * 0.95)) 0) ∧
    (computeLatencyStats latEx).map (·.p95Ms) = some 100 := by
  constructor
  · intro values s hne h
    have hn : 0 < values.length := List.length_pos.mpr hne
    have hq : (0 : ℚ) < values.length := by exact_mod_cast hn
    have hfl : Nat.floor ((values.length : ℚ) * 0.95) < values.length := by
      have harg : (0 : ℚ) ≤ (values.length : ℚ) * 0.95 := by positivity
      refine (Nat.floor_lt harg).mpr ?_
      nlinarith
    refine ⟨hfl, ?_⟩
    have hsort : (List.insertionSort numAsc values).length = values.length :=
      List.length_insertionSort numAsc values
    simp only [computeLatencyStats, if_neg hne, Option.some.injEq] at h
    subst h
    simp only [hsort]
    rw [min_eq_right (by omega : Nat.floor ((values.length : ℚ) * 0.95) ≤ values.length - 1)]
  · decide

/-- Witness for C8: the theorem applied to the spec's sample list. -/
theorem claim_C8_witness :
    latEx ≠ [] ∧
    (Nat.floor ((latEx.length : ℚ) * 0.95) < latEx.length ∧
     latStatsEx.p95Ms = (List.insertionSort numAsc latEx).getD
       (Nat.floor ((latEx.length : ℚ) * 0.95)) 0) :=
  ⟨by decide, claim_C8.1 latEx latStatsEx (by decide) (by decide)⟩

/-- The mean of a non-empty list of positive rationals is positive. -/
theorem calcMean_pos (l : List ℚ) (hp : ∀ x ∈ l, 0 < x) (hne : l ≠ []) :
    0 < calcMean l := by
  unfold calcMean
  rw [if_neg hne]
  have hs : 0 < l.sum := List.sum_pos l hp hne
  have hl : (0 : ℚ) < l.length := by
    have := List.length_pos.mpr hne
    exact_mod_cast this
  exact div_pos hs hl

/-- `buildTokenSpikes` computes exactly the claim's characterization: the
`baseline > 0` guard of the source is redundant because the baseline is a
mean of at least three positive values. -/
theorem buildTokenSpikes_eq_spec (daily : List FleetDay) :
    buildTokenSpikes daily = tokenSpikeSpec daily := by
  simp only [buildTokenSpikes, tokenSpikeSpec]
  by_cases h4 : daily.length ≥ 4
  case neg =>
    rw [if_neg h4]
    cases hlast : (List.insertionSort (dateAsc FleetDay.date) daily).getLast? with
    | none => rfl
    | some last =>
      simp only [hlast]
      rw [if_neg (fun hh => h4 hh.1)]
  case pos =>
    rw [if_pos h4]
    cases hlast : (List.insertionSort (dateAsc FleetDay.date) daily).getLast? with
    | none =>
      exfalso
      have : List.insertionSort (dateAsc FleetDay.date) daily = [] :=
        List.getLast?_eq_none_iff.mp hlast
      have hlen := List.length_insertionSort (dateAsc FleetDay.date) daily
      rw [this] at hlen
      simp at hlen
      omega
    | some last =>
      simp only [hlast]
      set prev := ((List.insertionSort (dateAsc FleetDay.date) daily).dropLast.map
        (·.tokens)).filter (fun n => decide (0 < n)) with hprev
      by_cases h3 : prev.length ≥ 3
      case neg =>
        rw [if_neg h3, if_neg (fun hh => h3 hh.2.1)]
      case pos =>
        rw [if_pos h3]
        have hpos : 0 < calcMean prev := by
          refine calcMean_pos prev (fun x hx => ?_) (fun hemp => by simp [hemp] at h3)
          exact of_decide_eq_true (List.mem_filter.mp hx).2
        rw [if_pos hpos]
        by_cases hc : last.tokens > 5000 ∧ last.tokens / calcMean prev ≥ 2.3
        case pos => rw [if_pos hc, if_pos ⟨h4, h3, hc.1, hc.2⟩]
        case neg => rw [if_neg hc, if_neg (fun hh => hc ⟨hh.2.2.1, hh.2.2.2⟩)]

/-- **C4.** A token spike is reported exactly under the claim's conditions
(≥ 4 days, ≥ 3 nonzero non-most-recent days, most recent > 5000 tokens and
ratio to the nonzero-day mean ≥ 2.3); the spike scenario
`[1000,1100,900,1050,6000]` fires with baseline 1012.5 and ratio
160/27 ≈ 5.93 (within 0.01 of 5.93), and `[1000,1000,1000,1000,1800]` fires
no spike. -/
theorem claim_C4 :
    (∀ daily : List FleetDay, buildTokenSpikes daily = tokenSpikeSpec daily) ∧
    buildTokenSpikes spikeDays =
      [{ date := 5, tokens := 6000, baselineTokens := 1012.5, ratio := 160/27 }] ∧
    |(160/27 : ℚ) - 5.93| < 1/100 ∧
    buildTokenSpikes noSpikeDays = [] := by
  refine ⟨buildTokenSpikes_eq_spec, by decide, ?_, by decide⟩
  rw [abs_sub_lt_iff]
  constructor <;> norm_num

/-- **C6.** A transcript with one undecodable line (blank, JSON-parse
failure, or non-object — all skipped identically) yields exactly the same
session summary as the transcript with that line removed; the parse never
aborts on it. -/
theorem claim_C6 (p : ParseParams) (pre suf : List Line) :
    parseSession p (pre ++ (none : Line) :: suf) = parseSession p (pre ++ suf) := by
  unfold parseSession
  congr 1
  rw [List.foldl_append, List.foldl_append, List.foldl_cons]
  rfl

/-! Stage projection lemmas for the parse fold. -/

@[simp] theorem sActivity_totals (ts? : Option ℚ) (st : PState) :
    (sActivity ts? st).totals = st.totals := by unfold sActivity; split <;> rfl

@[simp] theorem sActivity_timeline (ts? : Option ℚ) (st : PState) :
    (sActivity ts? st).timeline = st.timeline := by unfold sActivity; split <;> rfl

@[simp] theorem sActivity_waterfall (ts? : Option ℚ) (st : PState) :
    (sActivity ts? st).waterfall = st.waterfall := by unfold sActivity; split <;> rfl

@[simp] theorem sActivity_switches (ts? : Option ℚ) (st : PState) :
    (sActivity ts? st).modelSwitches = st.modelSwitches := by unfold sActivity; split <;> rfl

@[simp] theorem sActivity_prev (ts? : Option ℚ) (st : PState) :
    (sActivity ts? st).previousAssistantModelKey? = st.previousAssistantModelKey? := by
  unfold sActivity; split <;> rfl

@[simp] theorem sActivity_lastUser (ts? : Option ℚ) (st : PState) :
    (sActivity ts? st).lastUserTs? = st.lastUserTs? := by unfold sActivity; split <;> rfl

@[simp] theorem sCounts_totals (ctx : RecCtx) (s : PStep) :
    (sCounts ctx s).1.totals = s.1.totals := by unfold sCounts; split <;> rfl

@[simp] theorem sCounts_timeline (ctx : RecCtx) (s : PStep) :
    (sCounts ctx s).1.timeline = s.1.timeline := by unfold sCounts; split <;> rfl

@[simp] theorem sCounts_waterfall (ctx : RecCtx) (s : PStep) :
    (sCounts ctx s).1.waterfall = s.1.waterfall := by unfold sCounts; split <;> rfl

@[simp] theorem sCounts_switches (ctx : RecCtx) (s : PStep) :
    (sCounts ctx s).1.modelSwitches = s.1.modelSwitches := by unfold sCounts; split <;> rfl

@[simp] theorem sCounts_prev (ctx : RecCtx) (s : PStep) :
    (sCounts ctx s).1.previousAssistantModelKey? = s.1.previousAssistantModelKey? := by
  unfold sCounts; split <;> rfl

@[simp] theorem sCounts_lastUser (ctx : RecCtx) (s : PStep) :
    (sCounts ctx s).1.lastUserTs? = s.1.lastUserTs? := by unfold sCounts; split <;> rfl

@[simp] theorem sLastUser_totals (ctx : RecCtx) (st : PState) :
    (sLastUser ctx st).totals = st.totals := by unfold sLastUser; split <;> rfl

@[simp] theorem sLastUser_timeline (ctx : RecCtx) (st : PState) :
    (sLastUser ctx st).timeline = st.timeline := by unfold sLastUser; split <;> rfl

@[simp] theorem sLastUser_waterfall (ctx : RecCtx) (st : PState) :
    (sLastUser ctx st).waterfall = st.waterfall := by unfold sLastUser; split <;> rfl

@[simp] theorem sLastUser_switches (ctx : RecCtx) (st : PState) :
    (sLastUser ctx st).modelSwitches = st.modelSwitches := by unfold sLastUser; split <;> rfl

@[simp] theorem sLastUser_prev (ctx : RecCtx) (st : PState) :
    (sLastUser ctx st).previousAssistantModelKey? = st.previousAssistantModelKey? := by
  unfold sLastUser; split <;> rfl

@[simp] theorem sLastUser_lastUser (ctx : RecCtx) (st : PState) :
    (sLastUser ctx st).lastUserTs? =
      if ctx.role? = some "user" ∧ ctx.ts?.isSome then ctx.ts? else st.lastUserTs? := by
  unfold sLastUser; split <;> simp [*]

@[simp] theorem sTools_totals (ctx : RecCtx) (s : PStep) :
    (sTools ctx s).1.totals = s.1.totals := by unfold sTools; split <;> split <;> rfl

@[simp] theorem sTools_timeline (ctx : RecCtx) (s : PStep) :
    (sTools ctx s).1.timeline = s.1.timeline := by unfold sTools; split <;> split <;> rfl

@[simp] theorem sTools_waterfall (ctx : RecCtx) (s : PStep) :
    (sTools ctx s).1.waterfall = s.1.waterfall := by unfold sTools; split <;> split <;> rfl

@[simp] theorem sTools_switches (ctx : RecCtx) (s : PStep) :
    (sTools ctx s).1.modelSwitches = s.1.modelSwitches := by
  unfold sTools; split <;> split <;> rfl

@[simp] theorem sTools_prev (ctx : RecCtx) (s : PStep) :
    (sTools ctx s).1.previousAssistantModelKey? = s.1.previousAssistantModelKey? := by
  unfold sTools; split <;> split <;> rfl

@[simp] theorem sTools_lastUser (ctx : RecCtx) (s : PStep) :
    (sTools ctx s).1.lastUserTs? = s.1.lastUserTs? := by unfold sTools; split <;> split <;> rfl

@[simp] theorem sStopErr_totals (ctx : RecCtx) (s : PStep) :
    (sStopErr ctx s).1.totals = s.1.totals := by unfold sStopErr; split <;> rfl

@[simp] theorem sStopErr_timeline (ctx : RecCtx) (s : PStep) :
    (sStopErr ctx s).1.timeline = s.1.timeline := by unfold sStopErr; split <;> rfl

@[simp] theorem sStopErr_waterfall (ctx : RecCtx) (s : PStep) :
    (sStopErr ctx s).1.waterfall = s.1.waterfall := by unfold sStopErr; split <;> rfl

@[simp] theorem sStopErr_switches (ctx : RecCtx) (s : PStep) :
    (sStopErr ctx s).1.modelSwitches = s.1.modelSwitches := by unfold sStopErr; split <;> rfl

@[simp] theorem sStopErr_prev (ctx : RecCtx) (s : PStep) :
    (sStopErr ctx s).1.previousAssistantModelKey? = s.1.previousAssistantModelKey? := by
  unfold sStopErr; split <;> rfl

@[simp] theorem sStopErr_lastUser (ctx : RecCtx) (s : PStep) :
    (sStopErr ctx s).1.lastUserTs? = s.1.lastUserTs? := by unfold sStopErr; split <;> rfl

@[simp] theorem sUsage_timeline (ctx : RecCtx) (s : PStep) :
    (sUsage ctx s).1.1.timeline = s.1.timeline := by
  unfold sUsage; repeat' split <;> try rfl

@[simp] theorem sUsage_waterfall (ctx : RecCtx) (s : PStep) :
    (sUsage ctx s).1.1.waterfall = s.1.waterfall := by
  unfold sUsage; repeat' split <;> try rfl

@[simp] theorem sUsage_switches (ctx : RecCtx) (s : PStep) :
    (sUsage ctx s).1.1.modelSwitches = s.1.modelSwitches := by
  unfold sUsage; repeat' split <;> try rfl

@[simp] theorem sUsage_prev (ctx : RecCtx) (s : PStep) :
    (sUsage ctx s).1.1.previousAssistantModelKey? = s.1.previousAssistantModelKey? := by
  unfold sUsage; repeat' split <;> try rfl

@[simp] theorem sUsage_lastUser (ctx : RecCtx) (s : PStep) :
    (sUsage ctx s).1.1.lastUserTs? = s.1.lastUserTs? := by
  unfold sUsage; repeat' split <;> try rfl

theorem sUsage_totals (ctx : RecCtx) (s : PStep) :
    (sUsage ctx s).1.1.totals =
      match ctx.usage? with
      | none => s.1.totals
      | some u =>
        match extractCostBreakdown ctx.usageRaw? with
        | some b => applyCostBreakdown (applyUsageTotals s.1.totals u) b
        | none => applyCostTotal (applyUsageTotals s.1.totals u) ctx.rawCostChain? := by
  unfold sUsage
  cases hu : ctx.usage? with
  | none => rfl
  | some u =>
    cases hb : extractCostBreakdown ctx.usageRaw? <;> simp [hb]

@[simp] theorem sLatency_totals (ctx : RecCtx) (dur? : Option ℚ) (st : PState) :
    (sLatency ctx dur? st).totals = st.totals := by
  unfold sLatency; repeat' split <;> try rfl

@[simp] theorem sLatency_timeline (ctx : RecCtx) (dur? : Option ℚ) (st : PState) :
    (sLatency ctx dur? st).timeline = st.timeline := by
  unfold sLatency; repeat' split <;> try rfl

@[simp] theorem sLatency_waterfall (ctx : RecCtx) (dur? : Option ℚ) (st : PState) :
    (sLatency ctx dur? st).waterfall = st.waterfall := by
  unfold sLatency; repeat' split <;> try rfl

@[simp] theorem sLatency_switches (ctx : RecCtx) (dur? : Option ℚ) (st : PState) :
    (sLatency ctx dur? st).modelSwitches = st.modelSwitches := by
  unfold sLatency; repeat' split <;> try rfl

@[simp] theorem sLatency_prev (ctx : RecCtx) (dur? : Option ℚ) (st : PState) :
    (sLatency ctx dur? st).previousAssistantModelKey? = st.previousAssistantModelKey? := by
  unfold sLatency; repeat' split <;> try rfl

@[simp] theorem sLatency_lastUser (ctx : RecCtx) (dur? : Option ℚ) (st : PState) :
    (sLatency ctx dur? st).lastUserTs? = st.lastUserTs? := by
  unfold sLatency; repeat' split <;> try rfl

@[simp] theorem sSwitch_totals (ctx : RecCtx) (st : PState) :
    (sSwitch ctx st).totals = st.totals := by
  simp only [sSwitch]; split <;> split <;> rfl

@[simp] theorem sSwitch_timeline (ctx : RecCtx) (st : PState) :
    (sSwitch ctx st).timeline = st.timeline := by
  simp only [sSwitch]; split <;> split <;> rfl

@[simp] theorem sSwitch_waterfall (ctx : RecCtx) (st : PState) :
    (sSwitch ctx st).waterfall = st.waterfall := by
  simp only [sSwitch]; split <;> split <;> rfl

@[simp] theorem sSwitch_lastUser (ctx : RecCtx) (st : PState) :
    (sSwitch ctx st).lastUserTs? = st.lastUserTs? := by
  simp only [sSwitch]; split <;> split <;> rfl

theorem sSwitch_switches (ctx : RecCtx) (st : PState) :
    (sSwitch ctx st).modelSwitches = st.modelSwitches +
      (if ctx.role? = some "assistant" ∧ st.previousAssistantModelKey?.isSome ∧
          modelKeyOf ctx.provider? ctx.model? ≠ "unknown::unknown" ∧
          st.previousAssistantModelKey? ≠ some (modelKeyOf ctx.provider? ctx.model?)
        then 1 else 0) := by
  simp only [sSwitch]
  split <;> split <;> simp_all

theorem sSwitch_prev (ctx : RecCtx) (st : PState) :
    (sSwitch ctx st).previousAssistantModelKey? =
      (if ctx.role? = some "assistant" ∧ modelKeyOf ctx.provider? ctx.model? ≠ "unknown::unknown"
       then some (modelKeyOf ctx.provider? ctx.model?)
       else st.previousAssistantModelKey?) := by
  simp only [sSwitch]
  split <;> split <;> simp_all

@[simp] theorem sTimeline_totals (ctx : RecCtx) (dur? cost? : Option ℚ) (st : PState) :
    (sTimeline ctx dur? cost? st).totals = st.totals := by
  unfold sTimeline; split <;> rfl

@[simp] theorem sTimeline_waterfall (ctx : RecCtx) (dur? cost? : Option ℚ) (st : PState) :
    (sTimeline ctx dur? cost? st).waterfall = st.waterfall := by
  unfold sTimeline; split <;> rfl

@[simp] theorem sTimeline_switches (ctx : RecCtx) (dur? cost? : Option ℚ) (st : PState) :
    (sTimeline ctx dur? cost? st).modelSwitches = st.modelSwitches := by
  unfold sTimeline; split <;> rfl

@[simp] theorem sTimeline_prev (ctx : RecCtx) (dur? cost? : Option ℚ) (st : PState) :
    (sTimeline ctx dur? cost? st).previousAssistantModelKey? =
      st.previousAssistantModelKey? := by
  unfold sTimeline; split <;> rfl

@[simp] theorem sTimeline_lastUser (ctx : RecCtx) (dur? cost? : Option ℚ) (st : PState) :
    (sTimeline ctx dur? cost? st).lastUserTs? = st.lastUserTs? := by
  unfold sTimeline; split <;> rfl

theorem sTimeline_len (ctx : RecCtx) (dur? cost? : Option ℚ) (st : PState) :
    (sTimeline ctx dur? cost? st).timeline.length =
      st.timeline.length + (if ctx.ts?.isSome ∧ ctx.role?.isSome then 1 else 0) := by
  unfold sTimeline
  cases hts : ctx.ts? <;> cases hrole : ctx.role? <;> simp

@[simp] theorem sWaterfall_totals (ctx : RecCtx) (cost? : Option ℚ) (st : PState) :
    (sWaterfall ctx cost? st).totals = st.totals := by
  unfold sWaterfall; repeat' split <;> try rfl

@[simp] theorem sWaterfall_timeline (ctx : RecCtx) (cost? : Option ℚ) (st : PState) :
    (sWaterfall ctx cost? st).timeline = st.timeline := by
  unfold sWaterfall; repeat' split <;> try rfl

@[simp] theorem sWaterfall_switches (ctx : RecCtx) (cost? : Option ℚ) (st : PState) :
    (sWaterfall ctx cost? st).modelSwitches = st.modelSwitches := by
  unfold sWaterfall; repeat' split <;> try rfl

@[simp] theorem sWaterfall_prev (ctx : RecCtx) (cost? : Option ℚ) (st : PState) :
    (sWaterfall ctx cost? st).previousAssistantModelKey? =
      st.previousAssistantModelKey? := by
  unfold sWaterfall; repeat' split <;> try rfl

@[simp] theorem sWaterfall_lastUser (ctx : RecCtx) (cost? : Option ℚ) (st : PState) :
    (sWaterfall ctx cost? st).lastUserTs? = st.lastUserTs? := by
  unfold sWaterfall; repeat' split <;> try rfl

theorem sWaterfall_len (ctx : RecCtx) (cost? : Option ℚ) (st : PState) :
    (sWaterfall ctx cost? st).waterfall.length =
      st.waterfall.length +
        (if ctx.role? = some "assistant" ∧ ctx.ts?.isSome ∧ st.lastUserTs?.isSome
         then 1 else 0) := by
  unfold sWaterfall
  by_cases hr : ctx.role? = some "assistant"
  · rw [if_pos hr]
    cases hts : ctx.ts? <;> cases hlu : st.lastUserTs? <;> simp [hr]
  · rw [if_neg hr]
    simp [hr]

@[simp] theorem sCommitBucket_totals (s : PStep) :
    (sCommitBucket s).totals = s.1.totals := by unfold sCommitBucket; split <;> rfl

@[simp] theorem sCommitBucket_timeline (s : PStep) :
    (sCommitBucket s).timeline = s.1.timeline := by unfold sCommitBucket; split <;> rfl

@[simp] theorem sCommitBucket_waterfall (s : PStep) :
    (sCommitBucket s).waterfall = s.1.waterfall := by unfold sCommitBucket; split <;> rfl

@[simp] theorem sCommitBucket_switches (s : PStep) :
    (sCommitBucket s).modelSwitches = s.1.modelSwitches := by
  unfold sCommitBucket; split <;> rfl

@[simp] theorem sCommitBucket_prev (s : PStep) :
    (sCommitBucket s).previousAssistantModelKey? = s.1.previousAssistantModelKey? := by
  unfold sCommitBucket; split <;> rfl

@[simp] theorem sCommitBucket_lastUser (s : PStep) :
    (sCommitBucket s).lastUserTs? = s.1.lastUserTs? := by unfold sCommitBucket; split <;> rfl

@[simp] theorem sPreview_totals (ctx : RecCtx) (st : PState) :
    (sPreview ctx st).totals = st.totals := by
  simp only [sPreview]; split <;> first | rfl | (split <;> rfl)

@[simp] theorem sPreview_timeline (ctx : RecCtx) (st : PState) :
    (sPreview ctx st).timeline = st.timeline := by
  simp only [sPreview]; split <;> first | rfl | (split <;> rfl)

@[simp] theorem sPreview_waterfall (ctx : RecCtx) (st : PState) :
    (sPreview ctx st).waterfall = st.waterfall := by
  simp only [sPreview]; split <;> first | rfl | (split <;> rfl)

@[simp] theorem sPreview_switches (ctx : RecCtx) (st : PState) :
    (sPreview ctx st).modelSwitches = st.modelSwitches := by
  simp only [sPreview]; split <;> first | rfl | (split <;> rfl)

@[simp] theorem sPreview_prev (ctx : RecCtx) (st : PState) :
    (sPreview ctx st).previousAssistantModelKey? = st.previousAssistantModelKey? := by
  simp only [sPreview]; split <;> first | rfl | (split <;> rfl)

@[simp] theorem sPreview_lastUser (ctx : RecCtx) (st : PState) :
    (sPreview ctx st).lastUserTs? = st.lastUserTs? := by
  simp only [sPreview]; split <;> first | rfl | (split <;> rfl)

theorem applyCostBreakdown_totalCost (t : Totals) (b : CostBreakdown) :
    (applyCostBreakdown t b).totalCost = t.totalCost + b.total := by
  obtain ⟨total, i, o, cr, cw⟩ := b
  cases i <;> cases o <;> cases cr <;> cases cw <;> rfl

theorem applyCostBreakdown_totalTokens (t : Totals) (b : CostBreakdown) :
    (applyCostBreakdown t b).totalTokens = t.totalTokens := by
  obtain ⟨total, i, o, cr, cw⟩ := b
  cases i <;> cases o <;> cases cr <;> cases cw <;> rfl

theorem applyCostTotal_totalTokens (t : Totals) (x : Option ℚ) :
    (applyCostTotal t x).totalTokens = t.totalTokens := by
  cases x with
  | none => rfl
  | some v =>
    unfold applyCostTotal
    repeat' split
    all_goals rfl

/-- An out-of-range record is dropped without touching the state. -/
theorem foldRecord_not_inRange (range : Range) (st : PState) (r : Record)
    (hin : recordInRange range r = false) : foldRecord range st r = st := by
  simp [foldRecord, hin]

/-- The whole record step leaves `totals` exactly as the usage/cost branch
does. -/
theorem foldRecord_totals (range : Range) (st : PState) (r : Record)
    (hin : recordInRange range r = true) :
    (foldRecord range st r).totals =
      match (recCtx r).usage? with
      | none => st.totals
      | some u =>
        match extractCostBreakdown (recCtx r).usageRaw? with
        | some b => applyCostBreakdown (applyUsageTotals st.totals u) b
        | none => applyCostTotal (applyUsageTotals st.totals u) (recCtx r).rawCostChain? := by
  simp only [foldRecord, hin, eq_self_iff_true, if_true]
  simp [sUsage_totals]

/-- The record step appends to the timeline exactly when the record has a
timestamp and a recognized role. -/
theorem foldRecord_timeline_len (range : Range) (st : PState) (r : Record)
    (hin : recordInRange range r = true) :
    (foldRecord range st r).timeline.length = st.timeline.length +
      (if (recCtx r).ts?.isSome ∧ (recCtx r).role?.isSome then 1 else 0) := by
  simp only [foldRecord, hin, eq_self_iff_true, if_true]
  simp [sTimeline_len]

/-- The record step appends to the waterfall exactly when it is a
timestamped assistant turn and a timestamped user turn was seen before. -/
theorem foldRecord_waterfall_len (range : Range) (st : PState) (r : Record)
    (hin : recordInRange range r = true) :
    (foldRecord range st r).waterfall.length = st.waterfall.length +
      (if (recCtx r).role? = some "assistant" ∧ (recCtx r).ts?.isSome ∧
          st.lastUserTs?.isSome then 1 else 0) := by
  simp only [foldRecord, hin, eq_self_iff_true, if_true]
  simp only [sPreview_waterfall, sCommitBucket_waterfall, sWaterfall_len]
  by_cases hr : (recCtx r).role? = some "assistant"
  · have hnu : ¬((recCtx r).role? = some "user") := by rw [hr]; simp
    simp [hr, hnu]
  · simp [hr]

/-- **C7.** A record that yields a usage tuple but carries no cost
information anywhere (no nested breakdown with non-negative total and no
flat cost-total field) bumps the session's `missingCostEntries` by exactly
one and adds exactly nothing to `totalCost`. -/
theorem claim_C7 (range : Range) (st : PState) (r : Record) (u : UsageTuple)
    (hin : recordInRange range r = true)
    (hu : (recCtx r).usage? = some u)
    (hb : extractCostBreakdown (recCtx r).usageRaw? = none)
    (hr : (recCtx r).rawCostChain? = none) :
    (foldRecord range st r).totals.missingCostEntries =
      st.totals.missingCostEntries + 1 ∧
    (foldRecord range st r).totals.totalCost = st.totals.totalCost := by
  have hT := foldRecord_totals range st r hin
  simp only [hu, hb, hr] at hT
  exact ⟨by rw [hT]; rfl, by rw [hT]; rfl⟩

/-- Witness for C7: an assistant record with usage `{input: 1}` and no cost
fields, folded into the fresh parse state. -/
theorem claim_C7_witness :
    (foldRecord paramsEx.range {} missingCostRec).totals.missingCostEntries =
      ({} : PState).totals.missingCostEntries + 1 ∧
    (foldRecord paramsEx.range {} missingCostRec).totals.totalCost =
      ({} : PState).totals.totalCost :=
  claim_C7 paramsEx.range {} missingCostRec ⟨1, 0, 0, 0, 1⟩
    (by decide) (by decide) (by decide) (by decide)

/-- **C10.** An in-range record is appended to the timeline exactly when it
has a resolvable timestamp and a recognized role (`validRole` returns
`some` precisely on `{user, assistant, tool, toolResult}`); to the
waterfall exactly when it is additionally a timestamped assistant turn with
a previously seen timestamped user turn; and its usage tokens and nested
cost-breakdown total are added to the session totals regardless of
timestamp or role. -/
theorem claim_C10 (range : Range) (st : PState) (r : Record)
    (hin : recordInRange range r = true) :
    ((foldRecord range st r).timeline.length = st.timeline.length +
      (if (recCtx r).ts?.isSome ∧ (recCtx r).role?.isSome then 1 else 0)) ∧
    ((foldRecord range st r).waterfall.length = st.waterfall.length +
      (if (recCtx r).role? = some "assistant" ∧ (recCtx r).ts?.isSome ∧
          st.lastUserTs?.isSome then 1 else 0)) ∧
    (∀ u : UsageTuple, (recCtx r).usage? = some u →
      (foldRecord range st r).totals.totalTokens = st.totals.totalTokens + u.total) ∧
    (∀ (u : UsageTuple) (b : CostBreakdown), (recCtx r).usage? = some u →
      extractCostBreakdown (recCtx r).usageRaw? = some b →
      (foldRecord range st r).totals.totalCost = st.totals.totalCost + b.total) := by
  refine ⟨foldRecord_timeline_len range st r hin, foldRecord_waterfall_len range st r hin,
    ?_, ?_⟩
  · intro u hu
    have hT := foldRecord_totals range st r hin
    cases hb : extractCostBreakdown (recCtx r).usageRaw? with
    | some b =>
      simp only [hu, hb] at hT
      rw [hT, applyCostBreakdown_totalTokens]
      rfl
    | none =>
      simp only [hu, hb] at hT
      rw [hT, applyCostTotal_totalTokens]
      rfl
  · intro u b hu hb
    have hT := foldRecord_totals range st r hin
    simp only [hu, hb] at hT
    rw [hT, applyCostBreakdown_totalCost]
    rfl

/-- Witness for C10: the assistant record with usage and a nested cost
breakdown (`costRec`, no timestamp), folded into the fresh parse state. -/
theorem claim_C10_witness :
    ((foldRecord paramsEx.range {} costRec).timeline.length =
      ({} : PState).timeline.length +
        (if (recCtx costRec).ts?.isSome ∧ (recCtx costRec).role?.isSome then 1 else 0)) ∧
    ((foldRecord paramsEx.range {} costRec).waterfall.length =
      ({} : PState).waterfall.length +
        (if (recCtx costRec).role? = some "assistant" ∧ (recCtx costRec).ts?.isSome ∧
            ({} : PState).lastUserTs?.isSome then 1 else 0)) ∧
    ((foldRecord paramsEx.range {} costRec).totals.totalTokens =
      ({} : PState).totals.totalTokens + (1 : ℚ)) ∧
    ((foldRecord paramsEx.range {} costRec).totals.totalCost =
      ({} : PState).totals.totalCost + (10 : ℚ)) := by
  have h := claim_C10 paramsEx.range {} costRec (by decide)
  exact ⟨h.1, h.2.1, h.2.2.1 ⟨1, 0, 0, 0, 1⟩ (by decide),
    h.2.2.2 ⟨1, 0, 0, 0, 1⟩ { total := 10 } (by decide) (by decide)⟩

/-- The record step bumps the switch counter exactly when the record is an
in-scope assistant turn with a non-unknown identity differing from the
rolling previous identity. -/
theorem foldRecord_switches (range : Range) (st : PState) (r : Record)
    (hin : recordInRange range r = true) :
    (foldRecord range st r).modelSwitches = st.modelSwitches +
      (match assistantKeyOf r with
       | some k =>
         if st.previousAssistantModelKey?.isSome ∧ st.previousAssistantModelKey? ≠ some k
         then 1 else 0
       | none => 0) := by
  simp only [foldRecord, hin, eq_self_iff_true, if_true]
  simp only [sPreview_switches, sCommitBucket_switches, sWaterfall_switches,
    sTimeline_switches, sSwitch_switches, sLatency_prev, sLatency_switches, sUsage_prev,
    sUsage_switches, sStopErr_prev, sStopErr_switches, sTools_prev, sTools_switches,
    sLastUser_prev, sLastUser_switches, sCounts_prev, sCounts_switches, sActivity_prev,
    sActivity_switches, recCtx]
  unfold assistantKeyOf
  by_cases hr : validRole ((r.message?.getD {}).role?) = some "assistant"
  · by_cases hk : modelKeyOf ((r.message?.getD {}).provider? <|> r.provider?)
        ((r.message?.getD {}).model? <|> r.model?) = "unknown::unknown"
    · simp [hr, hk]
    · simp [hr, hk]
  · simp [hr]

/-- The record step updates the rolling previous assistant identity exactly
when the record is an in-scope assistant turn with a non-unknown identity. -/
theorem foldRecord_prev (range : Range) (st : PState) (r : Record)
    (hin : recordInRange range r = true) :
    (foldRecord range st r).previousAssistantModelKey? =
      match assistantKeyOf r with
      | some k => some k
      | none => st.previousAssistantModelKey? := by
  simp only [foldRecord, hin, eq_self_iff_true, if_true]
  simp only [sPreview_prev, sCommitBucket_prev, sWaterfall_prev, sTimeline_prev,
    sSwitch_prev, sLatency_prev, sUsage_prev, sStopErr_prev, sTools_prev, sLastUser_prev,
    sCounts_prev, sActivity_prev, recCtx]
  unfold assistantKeyOf
  by_cases hr : validRole ((r.message?.getD {}).role?) = some "assistant"
  · by_cases hk : modelKeyOf ((r.message?.getD {}).provider? <|> r.provider?)
        ((r.message?.getD {}).model? <|> r.model?) = "unknown::unknown"
    · simp [hr, hk]
    · simp [hr, hk]
  · simp [hr]

/-- The line fold counts switches as adjacent changes over the sequence of
non-unknown assistant identities, continuing from the rolling state. -/
theorem foldl_switches (range : Range) : ∀ (lines : List Line) (st : PState),
    (lines.foldl (foldLine range) st).modelSwitches =
      st.modelSwitches + switchesFrom st.previousAssistantModelKey?
        (((lines.filterMap id).filter (fun r => recordInRange range r)).filterMap
          assistantKeyOf) := by
  intro lines
  induction lines with
  | nil => intro st; simp [switchesFrom]
  | cons l rest ih =>
    intro st
    cases l with
    | none => simpa using ih st
    | some r =>
      rw [List.foldl_cons]
      show (rest.foldl (foldLine range) (foldRecord range st r)).modelSwitches = _
      by_cases hin : recordInRange range r = true
      · rw [ih (foldRecord range st r), foldRecord_switches range st r hin,
          foldRecord_prev range st r hin]
        cases hk : assistantKeyOf r with
        | some k => simp [hin, hk, switchesFrom, Nat.add_assoc]
        | none => simp [hin, hk]
      · have hin' : recordInRange range r = false := by
          revert hin; cases recordInRange range r <;> simp
        rw [foldRecord_not_inRange range st r hin', ih st]
        simp [hin']

/-- **C5.** The model-switch counter equals the number of adjacent changes
in the sequence of non-unknown assistant-turn identities of the parsed
records (an assistant turn with an unknown identity neither counts nor
updates the rolling identity); for assistant turns modeled A, A, B, B, A
the counter is 2 and the unique-model count is 2. -/
theorem claim_C5 :
    (∀ (p : ParseParams) (lines : List Line),
      (parseSession p lines).modelSwitches =
        switchesFrom none
          (((lines.filterMap id).filter (fun r => recordInRange p.range r)).filterMap
            assistantKeyOf)) ∧
    (parseSession paramsEx switchLines).modelSwitches = 2 ∧
    (parseSession paramsEx switchLines).uniqueModels = 2 := by
  refine ⟨?_, by decide, by decide⟩
  intro p lines
  unfold parseSession
  have hfin : ∀ st : PState, (finishSession p st).modelSwitches = st.modelSwitches :=
    fun _ => rfl
  rw [hfin, foldl_switches]
  simp

/-! Aggregate-latency lemmas for C9. -/

@[simp] theorem aggModelRow_latency (acc : AggState) (m : ModelBucket) :
    (aggModelRow acc m).latency = acc.latency := rfl

@[simp] theorem foldl_aggModelRow_latency (ms : List ModelBucket) :
    ∀ acc : AggState, (ms.foldl aggModelRow acc).latency = acc.latency := by
  induction ms with
  | nil => intro acc; rfl
  | cons m rest ih => intro acc; rw [List.foldl_cons, ih, aggModelRow_latency]

@[simp] theorem aggDay_latency (acc : AggState) (d : SessionDay) :
    (aggDay acc d).latency = acc.latency := rfl

@[simp] theorem foldl_aggDay_latency (ds : List SessionDay) :
    ∀ acc : AggState, (ds.foldl aggDay acc).latency = acc.latency := by
  induction ds with
  | nil => intro acc; rfl
  | cons d rest ih => intro acc; rw [List.foldl_cons, ih, aggDay_latency]

@[simp] theorem aggContext_latency (acc : AggState) (s : SessionSummary) :
    (aggContext acc s).latency = acc.latency := by
  unfold aggContext
  repeat' split
  all_goals rfl

theorem aggSession_latency (acc : AggState) (s : SessionSummary) :
    (aggSession acc s).latency = aggLatency acc.latency s.latency := by
  simp only [aggSession]
  simp

theorem foldl_aggSession_latency (sessions : List SessionSummary) :
    ∀ acc : AggState, (sessions.foldl aggSession acc).latency =
      sessions.foldl (fun a s => aggLatency a s.latency) acc.latency := by
  induction sessions with
  | nil => intro acc; rfl
  | cons s rest ih =>
    intro acc
    rw [List.foldl_cons, List.foldl_cons, ih, aggSession_latency]

/-- The guarded latency fold over sessions equals the plain fold over the
accepted per-session stats. -/
theorem lat_fold_filter (sessions : List SessionSummary) :
    ∀ a : LatAcc, sessions.foldl (fun a s => aggLatency a s.latency) a =
      (((sessions.filterMap (·.latency)).filter (fun l => decide (l.count ≠ 0))).foldl
        (fun a l => aggLatency a (some l)) a) := by
  induction sessions with
  | nil => intro a; rfl
  | cons s rest ih =>
    intro a
    rw [List.foldl_cons]
    cases hs : s.latency with
    | none => simpa [hs, aggLatency] using ih a
    | some l =>
      by_cases hc : l.count ≠ 0
      · simp only [List.filterMap_cons, hs, List.filter_cons]
        rw [if_pos (by simpa using hc)]
        rw [List.foldl_cons]
        exact ih _
      · have hc0 : l.count = 0 := by omega
        simp only [List.filterMap_cons, hs, List.filter_cons]
        rw [if_neg (by simp [hc0])]
        have hskip : aggLatency a (some l) = a := by simp [aggLatency, hc0]
        rw [hskip]
        exact ih a

/-- `aggLatency` on accepted stats, written out. -/
theorem aggLatency_some (a : LatAcc) (l : LatencyStats) (h : l.count ≠ 0) :
    aggLatency a (some l) =
      { count := a.count + l.count,
        sum := a.sum + l.avgMs * l.count,
        min? := some (match a.min? with | none => l.minMs | some m => min m l.minMs),
        max := max a.max l.maxMs,
        p95Max := max a.p95Max l.p95Ms } := by
  simp [aggLatency, h]

/-- Count, weighted sum, max and p95 of the latency fold. -/
theorem latFold_fields (ls : List LatencyStats) :
    ∀ a : LatAcc, (∀ l ∈ ls, l.count ≠ 0) →
      (ls.foldl (fun a l => aggLatency a (some l)) a).count =
        a.count + (ls.map (·.count)).sum ∧
      (ls.foldl (fun a l => aggLatency a (some l)) a).sum =
        a.sum + (ls.map fun l => l.avgMs * (l.count : ℚ)).sum ∧
      (ls.foldl (fun a l => aggLatency a (some l)) a).max =
        ls.foldl (fun m l => max m l.maxMs) a.max ∧
      (ls.foldl (fun a l => aggLatency a (some l)) a).p95Max =
        ls.foldl (fun m l => max m l.p95Ms) a.p95Max := by
  induction ls with
  | nil => intro a _; simp
  | cons l rest ih =>
    intro a h
    have hl : l.count ≠ 0 := h l (by simp)
    have hrest : ∀ x ∈ rest, x.count ≠ 0 := fun x hx => h x (by simp [hx])
    obtain ⟨ihc, ihs, ihm, ihp⟩ := ih (aggLatency a (some l)) hrest
    rw [List.foldl_cons, List.foldl_cons, List.foldl_cons]
    refine ⟨?_, ?_, ?_, ?_⟩
    · rw [ihc, aggLatency_some a l hl]
      simp [Nat.add_assoc]
    · rw [ihs, aggLatency_some a l hl]
      simp
      ring
    · rw [ihm, aggLatency_some a l hl]
    · rw [ihp, aggLatency_some a l hl]

/-- The `min?` accumulator of the latency fold, once set, is the running
minimum. -/
theorem latFold_min_eq (ls : List LatencyStats) :
    ∀ (a : LatAcc) (m0 : ℚ), a.min? = some m0 → (∀ l ∈ ls, l.count ≠ 0) →
      (ls.foldl (fun a l => aggLatency a (some l)) a).min? =
        some (ls.foldl (fun m l => min m l.minMs) m0) := by
  induction ls with
  | nil => intro a m0 ha _; simpa using ha
  | cons l rest ih =>
    intro a m0 ha h
    have hl : l.count ≠ 0 := h l (by simp)
    rw [List.foldl_cons, List.foldl_cons]
    refine ih _ _ ?_ (fun x hx => h x (by simp [hx]))
    rw [aggLatency_some a l hl, ha]

/-- The fold `foldl (fun m x => max m (f x)) m0` is the maximum of `m0` and
the mapped values. -/
theorem foldl_max_spec {α : Type} (f : α → ℚ) (ls : List α) :
    ∀ m0 : ℚ, (ls.foldl (fun m x => max m (f x)) m0) ∈ m0 :: ls.map f ∧
      ∀ x ∈ m0 :: ls.map f, x ≤ ls.foldl (fun m x => max m (f x)) m0 := by
  induction ls with
  | nil => intro m0; simp
  | cons l rest ih =>
    intro m0
    obtain ⟨ihmem, ihub⟩ := ih (max m0 (f l))
    rw [List.foldl_cons]
    constructor
    · rcases List.mem_cons.mp ihmem with hm | hm
      · rcases max_choice m0 (f l) with hc | hc <;> rw [hm, hc]
        · simp
        · simp
      · simp [hm]
    · intro x hx
      rcases List.mem_cons.mp hx with hx | hx
      · calc x = m0 := hx
          _ ≤ max m0 (f l) := le_max_left _ _
          _ ≤ _ := ihub _ (by simp)
      · rcases List.mem_cons.mp hx with hx | hx
        · calc x = f l := hx
            _ ≤ max m0 (f l) := le_max_right _ _
            _ ≤ _ := ihub _ (by simp)
        · exact ihub x (by simp [hx])

/-- The fold `foldl (fun m x => min m (f x)) m0` is the minimum of `m0` and
the mapped values. -/
theorem foldl_min_spec {α : Type} (f : α → ℚ) (ls : List α) :
    ∀ m0 : ℚ, (ls.foldl (fun m x => min m (f x)) m0) ∈ m0 :: ls.map f ∧
      ∀ x ∈ m0 :: ls.map f, ls.foldl (fun m x => min m (f x)) m0 ≤ x := by
  induction ls with
  | nil => intro m0; simp
  | cons l rest ih =>
    intro m0
    obtain ⟨ihmem, ihlb⟩ := ih (min m0 (f l))
    rw [List.foldl_cons]
    constructor
    · rcases List.mem_cons.mp ihmem with hm | hm
      · rcases min_choice m0 (f l) with hc | hc <;> rw [hm, hc]
        · simp
        · simp
      · simp [hm]
    · intro x hx
      rcases List.mem_cons.mp hx with hx | hx
      · calc _ ≤ min m0 (f l) := ihlb _ (by simp)
          _ ≤ m0 := min_le_left _ _
          _ = x := hx.symm
      · rcases List.mem_cons.mp hx with hx | hx
        · calc _ ≤ min m0 (f l) := ihlb _ (by simp)
            _ ≤ f l := min_le_right _ _
            _ = x := hx.symm
        · exact ihlb x (by simp [hx])

theorem aggregateSessions_latency (sessions : List SessionSummary) (filter : SessFilter) :
    (aggregateSessions sessions filter).latency =
      (if ((sessions.filter (sessionMatches filter)).foldl aggSession {}).latency.count > 0
       then some
        { count := ((sessions.filter (sessionMatches filter)).foldl aggSession {}).latency.count,
          avgMs := ((sessions.filter (sessionMatches filter)).foldl aggSession {}).latency.sum /
            (((sessions.filter (sessionMatches filter)).foldl aggSession {}).latency.count : ℚ),
          minMs :=
            (((sessions.filter (sessionMatches filter)).foldl aggSession {}).latency.min?).getD 0,
          maxMs := ((sessions.filter (sessionMatches filter)).foldl aggSession {}).latency.max,
          p95Ms :=
            ((sessions.filter (sessionMatches filter)).foldl aggSession {}).latency.p95Max }
       else none) := rfl

/-- The fields of the latency accumulator after folding a non-empty list of
accepted stats from the zero accumulator. -/
theorem latFold_stats (ls : List LatencyStats) (hcount : ∀ l ∈ ls, l.count ≠ 0)
    (hne : ls ≠ []) :
    (ls.foldl (fun a l => aggLatency a (some l)) ({} : LatAcc)).count =
      (ls.map (·.count)).sum ∧
    (ls.foldl (fun a l => aggLatency a (some l)) ({} : LatAcc)).sum =
      (ls.map fun l => l.avgMs * (l.count : ℚ)).sum ∧
    ((ls.foldl (fun a l => aggLatency a (some l)) ({} : LatAcc)).min?.getD 0 ∈
        ls.map (·.minMs) ∧
      ∀ x ∈ ls.map (·.minMs),
        (ls.foldl (fun a l => aggLatency a (some l)) ({} : LatAcc)).min?.getD 0 ≤ x) ∧
    ((ls.foldl (fun a l => aggLatency a (some l)) ({} : LatAcc)).max ∈
        (0 : ℚ) :: ls.map (·.maxMs) ∧
      ∀ x ∈ (0 : ℚ) :: ls.map (·.maxMs),
        x ≤ (ls.foldl (fun a l => aggLatency a (some l)) ({} : LatAcc)).max) ∧
    ((ls.foldl (fun a l => aggLatency a (some l)) ({} : LatAcc)).p95Max ∈
        (0 : ℚ) :: ls.map (·.p95Ms) ∧
      ∀ x ∈ (0 : ℚ) :: ls.map (·.p95Ms),
        x ≤ (ls.foldl (fun a l => aggLatency a (some l)) ({} : LatAcc)).p95Max) := by
  obtain ⟨hc, hs, hm, hp⟩ := latFold_fields ls ({} : LatAcc) hcount
  refine ⟨by rw [hc]; simp, by rw [hs]; simp, ?_, ?_, ?_⟩
  · cases ls with
    | nil => exact absurd rfl hne
    | cons l0 rest =>
      have hl0 : l0.count ≠ 0 := hcount l0 (by simp)
      have hrest : ∀ l ∈ rest, l.count ≠ 0 := fun l hl => hcount l (by simp [hl])
      have hstep : (aggLatency ({} : LatAcc) (some l0)).min? = some l0.minMs := by
        rw [aggLatency_some _ _ hl0]
      have hmin := latFold_min_eq rest (aggLatency ({} : LatAcc) (some l0)) l0.minMs
        hstep hrest
      rw [List.foldl_cons, hmin]
      obtain ⟨hmem, hlb⟩ := foldl_min_spec (·.minMs) rest l0.minMs
      simp only [Option.getD_some, List.map_cons]
      exact ⟨hmem, hlb⟩
  · rw [hm]
    exact foldl_max_spec (·.maxMs) ls 0
  · rw [hp]
    exact foldl_max_spec (·.p95Ms) ls 0

/-- **C9 (amended).** Fleet latency over the filtered sessions with a
nonzero latency count: the average is the weighted-mean reconstruction
`Σ(avg_i × count_i) / Σ count_i`, the count is `Σ count_i`, and the min is
the exact minimum of per-session mins — but the max and p95 folds start at
0, so they are the maximum of 0 and the per-session maxes / p95 values
(equal to the true maxima whenever those are non-negative). Nothing is
recomputed from raw samples. -/
theorem claim_C9_amended (sessions : List SessionSummary) (filter : SessFilter)
    (ls : List LatencyStats)
    (hls : ls = ((aggregateSessions sessions filter).filtered.filterMap (·.latency)).filter
      (fun l => decide (l.count ≠ 0))) :
    ((aggregateSessions sessions filter).latency = none ↔ ls = []) ∧
    (∀ stats : LatencyStats, (aggregateSessions sessions filter).latency = some stats →
      stats.count = (ls.map (·.count)).sum ∧
      stats.avgMs = (ls.map fun l => l.avgMs * (l.count : ℚ)).sum /
        ((ls.map (·.count)).sum : ℚ) ∧
      stats.minMs ∈ ls.map (·.minMs) ∧ (∀ x ∈ ls.map (·.minMs), stats.minMs ≤ x) ∧
      stats.maxMs ∈ (0 : ℚ) :: ls.map (·.maxMs) ∧
      (∀ x ∈ (0 : ℚ) :: ls.map (·.maxMs), x ≤ stats.maxMs) ∧
      stats.p95Ms ∈ (0 : ℚ) :: ls.map (·.p95Ms) ∧
      (∀ x ∈ (0 : ℚ) :: ls.map (·.p95Ms), x ≤ stats.p95Ms)) := by
  have hcount : ∀ l ∈ ls, l.count ≠ 0 := by
    intro l hl
    rw [hls] at hl
    have := (List.mem_filter.mp hl).2
    simpa using this
  have hacc : ((sessions.filter (sessionMatches filter)).foldl aggSession {}).latency =
      ls.foldl (fun a l => aggLatency a (some l)) ({} : LatAcc) := by
    rw [foldl_aggSession_latency, lat_fold_filter, hls]
    rfl
  obtain ⟨hc, hs, _, _⟩ := latFold_fields ls ({} : LatAcc) hcount
  have hsum_pos : ls ≠ [] → 0 < (ls.map (·.count)).sum := by
    intro hne
    cases hl : ls with
    | nil => exact absurd hl hne
    | cons l rest =>
      have h0 := hcount l (by simp [hl])
      simp only [List.map_cons, List.sum_cons]
      omega
  constructor
  · rw [aggregateSessions_latency]
    constructor
    · intro hnone
      by_contra hne
      rw [if_pos (by rw [hacc, hc]; have := hsum_pos hne; omega)] at hnone
      exact Option.some_ne_none _ hnone
    · intro hempty
      rw [if_neg (by rw [hacc, hc, hempty]; simp)]
  · intro stats hstats
    rw [aggregateSessions_latency] at hstats
    split at hstats
    case isFalse => exact absurd hstats (by simp)
    case isTrue hpos =>
      have hne : ls ≠ [] := by
        intro hempty
        rw [hacc, hc, hempty] at hpos
        simp at hpos
      simp only [Option.some.injEq] at hstats
      subst hstats
      obtain ⟨sc, ss, smin, smax, sp95⟩ := latFold_stats ls hcount hne
      refine ⟨?_, ?_, ?_, ?_, ?_, ?_, ?_, ?_⟩
      · simp only [hacc, sc]
      · simp only [hacc, ss, sc]
        rw [Nat.cast_list_sum, List.map_map]
        rfl
      · simpa only [hacc] using smin.1
      · simpa only [hacc] using smin.2
      · simpa only [hacc] using smax.1
      · simpa only [hacc] using smax.2
      · simpa only [hacc] using sp95.1
      · simpa only [hacc] using sp95.2

/-- **C9 counterexample.** One session whose only latency sample is an
explicit negative `durationMs` (-5): its per-session max is -5, but the
fleet fold starts at 0, so the fleet max is 0 — not the maximum of the
per-session maxes as the claim states. -/
theorem claim_C9_counterexample :
    (aggregateSessions [parseSession paramsEx [some negLatRec]] {}).latency.map (·.maxMs) =
      some 0 ∧
    (((aggregateSessions [parseSession paramsEx [some negLatRec]] {}).filtered.filterMap
        (·.latency)).filter (fun l => decide (l.count ≠ 0))).map (·.maxMs) = [(-5 : ℚ)] ∧
    some (0 : ℚ) ≠ some (-5 : ℚ) :=
  ⟨by decide, by decide, by decide⟩

/-- Witness for C9: the amended theorem applied to that same
negative-latency session. -/
theorem claim_C9_witness :
    ({ count := 1, avgMs := -5, p95Ms := 0, minMs := -5, maxMs := 0 } : LatencyStats).count =
      ([({ count := 1, avgMs := -5, p95Ms := -5, minMs := -5, maxMs := -5 } :
        LatencyStats)].map (·.count)).sum ∧
    ({ count := 1, avgMs := -5, p95Ms := 0, minMs := -5, maxMs := 0 } : LatencyStats).avgMs =
      ([({ count := 1, avgMs := -5, p95Ms := -5, minMs := -5, maxMs := -5 } :
        LatencyStats)].map fun l => l.avgMs * (l.count : ℚ)).sum /
      (([({ count := 1, avgMs := -5, p95Ms := -5, minMs := -5, maxMs := -5 } :
        LatencyStats)].map (·.count)).sum : ℚ) ∧
    ({ count := 1, avgMs := -5, p95Ms := 0, minMs := -5, maxMs := 0 } : LatencyStats).minMs ∈
      [({ count := 1, avgMs := -5, p95Ms := -5, minMs := -5, maxMs := -5 } :
        LatencyStats)].map (·.minMs) ∧
    (∀ x ∈ [({ count := 1, avgMs := -5, p95Ms := -5, minMs := -5, maxMs := -5 } :
        LatencyStats)].map (·.minMs),
      ({ count := 1, avgMs := -5, p95Ms := 0, minMs := -5, maxMs := 0 } :
        LatencyStats).minMs ≤ x) ∧
    ({ count := 1, avgMs := -5, p95Ms := 0, minMs := -5, maxMs := 0 } : LatencyStats).maxMs ∈
      (0 : ℚ) :: [({ count := 1, avgMs := -5, p95Ms := -5, minMs := -5, maxMs := -5 } :
        LatencyStats)].map (·.maxMs) ∧
    (∀ x ∈ (0 : ℚ) :: [({ count := 1, avgMs := -5, p95Ms := -5, minMs := -5, maxMs := -5 } :
        LatencyStats)].map (·.maxMs),
      x ≤ ({ count := 1, avgMs := -5, p95Ms := 0, minMs := -5, maxMs := 0 } :
        LatencyStats).maxMs) ∧
    ({ count := 1, avgMs := -5, p95Ms := 0, minMs := -5, maxMs := 0 } : LatencyStats).p95Ms ∈
      (0 : ℚ) :: [({ count := 1, avgMs := -5, p95Ms := -5, minMs := -5, maxMs := -5 } :
        LatencyStats)].map (·.p95Ms) ∧
    (∀ x ∈ (0 : ℚ) :: [({ count := 1, avgMs := -5, p95Ms := -5, minMs := -5, maxMs := -5 } :
        LatencyStats)].map (·.p95Ms),
      x ≤ ({ count := 1, avgMs := -5, p95Ms := 0, minMs := -5, maxMs := 0 } :
        LatencyStats).p95Ms) :=
  (claim_C9_amended [parseSession paramsEx [some negLatRec]] {}
      [{ count := 1, avgMs := -5, p95Ms := -5, minMs := -5, maxMs := -5 }] (by decide)).2
    { count := 1, avgMs := -5, p95Ms := 0, minMs := -5, maxMs := 0 } (by decide)

end Observatory

